import Mathlib

/-!
# CLRC632 RFID ASIC driver (ccid-utils, `src/clrc632.c`) and EMV tag lookup (`src/emv.c`)

A shallow embedding of the register/FIFO driver and of the tag lookup of the
EMV layer, and proofs about them.

* The transport behind `cci->cc_rc632` (four function pointers) is a record of
  four state-passing functions over an arbitrary transport state `σ`.
* Every call through the transport is appended to a trace, so statements about
  "which register writes happen, and in which order" are statements about a list.
  That a write reaches the device is a statement about the transport state,
  `Dev.st`, which every call threads through.
* C `int` results that are only ever tested for zero are `Bool`
  (`true` = non-zero = success).
* `uint8_t` values are `Nat`s below 256; narrowing is written `% 256` where a
  computed value can leave that range.
-/

namespace Clrc632

/-! ## Constants of `clrc632.h` and `rfid.h` -/

/-- The symbolic constants that `clrc632.c` takes from `clrc632.h`. The header is
not part of the sources, so the driver is parameterised over their values.
Every one of them is an 8-bit quantity in the header (register addresses, bit
masks and command codes of an 8-bit register file). -/
structure Consts where
  RC632_REG_PAGE0 : Nat
  RC632_REG_COMMAND : Nat
  RC632_REG_PRIMARY_STATUS : Nat
  RC632_REG_FIFO_LENGTH : Nat
  RC632_REG_INTERRUPT_EN : Nat
  RC632_REG_INTERRUPT_RQ : Nat
  RC632_REG_CONTROL : Nat
  RC632_REG_ERROR_FLAG : Nat
  RC632_REG_COLL_POS : Nat
  RC632_REG_BIT_FRAMING : Nat
  RC632_REG_TX_CONTROL : Nat
  RC632_REG_CW_CONDUCTANCE : Nat
  RC632_REG_MOD_CONDUCTANCE : Nat
  RC632_REG_CODER_CONTROL : Nat
  RC632_REG_MOD_WIDTH : Nat
  RC632_REG_MOD_WIDTH_SOF : Nat
  RC632_REG_TYPE_B_FRAMING : Nat
  RC632_REG_RX_CONTROL1 : Nat
  RC632_REG_DECODER_CONTROL : Nat
  RC632_REG_BIT_PHASE : Nat
  RC632_REG_RX_THRESHOLD : Nat
  RC632_REG_BPSK_DEM_CONTROL : Nat
  RC632_REG_RX_CONTROL2 : Nat
  RC632_REG_RX_WAIT : Nat
  RC632_REG_CHANNEL_REDUNDANCY : Nat
  RC632_REG_CRC_PRESET_LSB : Nat
  RC632_REG_CRC_PRESET_MSB : Nat
  RC632_REG_TIMER_CLOCK : Nat
  RC632_REG_TIMER_CONTROL : Nat
  RC632_REG_TIMER_RELOAD : Nat
  RC632_CMD_IDLE : Nat
  RC632_CMD_TRANSCEIVE : Nat
  RC632_STAT_ERR : Nat
  RC632_STAT_IRQ : Nat
  RC632_CONTROL_FIFO_FLUSH : Nat
  RC632_CONTROL_CRYPTO1_ON : Nat
  RC632_CONTROL_POWERDOWN : Nat
  RC632_ERR_FLAG_COL_ERR : Nat
  RC632_ERR_FLAG_PARITY_ERR : Nat
  RC632_ERR_FLAG_FRAMING_ERR : Nat
  RC632_ERR_FLAG_CRC_ERR : Nat
  RC632_INT_SET : Nat
  RC632_IRQ_IDLE : Nat
  RC632_IRQ_RX : Nat
  RC632_IRQ_TIMER : Nat
  RC632_IRQ_SET : Nat
  RC632_TXCTRL_TX1_RF_EN : Nat
  RC632_TXCTRL_TX2_RF_EN : Nat
  RC632_TXCTRL_TX2_INV : Nat
  RC632_TXCTRL_FORCE_100_ASK : Nat
  RC632_TXCTRL_MOD_SRC_INT : Nat
  RC632_CDRCTRL_TXCD_14443A : Nat
  RC632_CDRCTRL_RATE_MASK : Nat
  RC632_CDRCTRL_RATE_848K : Nat
  RC632_CDRCTRL_RATE_424K : Nat
  RC632_CDRCTRL_RATE_212K : Nat
  RC632_CDRCTRL_RATE_106K : Nat
  RC632_RXCTRL1_GAIN_35DB : Nat
  RC632_RXCTRL1_ISO14443 : Nat
  RC632_RXCTRL1_SUBCP_MASK : Nat
  RC632_RXCTRL1_SUBCP_1 : Nat
  RC632_RXCTRL1_SUBCP_2 : Nat
  RC632_RXCTRL1_SUBCP_4 : Nat
  RC632_RXCTRL1_SUBCP_8 : Nat
  RC632_DECCTRL_MANCHESTER : Nat
  RC632_DECCTRL_BPSK : Nat
  RC632_DECCTRL_RXFR_14443A : Nat
  RC632_RXCTRL2_DECSRC_INT : Nat
  RC632_RXCTRL2_CLK_Q : Nat
  RC632_CR_PARITY_ENABLE : Nat
  RC632_CR_PARITY_ODD : Nat
  RC632_CR_TX_CRC_ENABLE : Nat
  RC632_CR_RX_CRC_ENABLE : Nat
  RC632_TMR_START_TX_END : Nat
  RC632_TMR_STOP_RX_BEGIN : Nat

/-- Modelled from the spec: the values of the constants of `clrc632.h`, which the
spec describes as "a fixed enumeration ... defined by the ASIC, not by this
driver". They are the register map and bit assignments of the CLRC632 data
sheet. Used wherever the driver is evaluated on a concrete input. -/
def rc632 : Consts where
  RC632_REG_PAGE0 := 0x00
  RC632_REG_COMMAND := 0x01
  RC632_REG_PRIMARY_STATUS := 0x03
  RC632_REG_FIFO_LENGTH := 0x04
  RC632_REG_INTERRUPT_EN := 0x06
  RC632_REG_INTERRUPT_RQ := 0x07
  RC632_REG_CONTROL := 0x09
  RC632_REG_ERROR_FLAG := 0x0a
  RC632_REG_COLL_POS := 0x0b
  RC632_REG_BIT_FRAMING := 0x0f
  RC632_REG_TX_CONTROL := 0x11
  RC632_REG_CW_CONDUCTANCE := 0x12
  RC632_REG_MOD_CONDUCTANCE := 0x13
  RC632_REG_CODER_CONTROL := 0x14
  RC632_REG_MOD_WIDTH := 0x15
  RC632_REG_MOD_WIDTH_SOF := 0x16
  RC632_REG_TYPE_B_FRAMING := 0x17
  RC632_REG_RX_CONTROL1 := 0x19
  RC632_REG_DECODER_CONTROL := 0x1a
  RC632_REG_BIT_PHASE := 0x1b
  RC632_REG_RX_THRESHOLD := 0x1c
  RC632_REG_BPSK_DEM_CONTROL := 0x1d
  RC632_REG_RX_CONTROL2 := 0x1e
  RC632_REG_RX_WAIT := 0x21
  RC632_REG_CHANNEL_REDUNDANCY := 0x22
  RC632_REG_CRC_PRESET_LSB := 0x23
  RC632_REG_CRC_PRESET_MSB := 0x24
  RC632_REG_TIMER_CLOCK := 0x2a
  RC632_REG_TIMER_CONTROL := 0x2b
  RC632_REG_TIMER_RELOAD := 0x2c
  RC632_CMD_IDLE := 0x00
  RC632_CMD_TRANSCEIVE := 0x1e
  RC632_STAT_ERR := 0x04
  RC632_STAT_IRQ := 0x08
  RC632_CONTROL_FIFO_FLUSH := 0x01
  RC632_CONTROL_CRYPTO1_ON := 0x08
  RC632_CONTROL_POWERDOWN := 0x10
  RC632_ERR_FLAG_COL_ERR := 0x01
  RC632_ERR_FLAG_PARITY_ERR := 0x02
  RC632_ERR_FLAG_FRAMING_ERR := 0x04
  RC632_ERR_FLAG_CRC_ERR := 0x08
  RC632_INT_SET := 0x80
  RC632_IRQ_IDLE := 0x04
  RC632_IRQ_RX := 0x08
  RC632_IRQ_TIMER := 0x20
  RC632_IRQ_SET := 0x80
  RC632_TXCTRL_TX1_RF_EN := 0x01
  RC632_TXCTRL_TX2_RF_EN := 0x02
  RC632_TXCTRL_TX2_INV := 0x08
  RC632_TXCTRL_FORCE_100_ASK := 0x10
  RC632_TXCTRL_MOD_SRC_INT := 0x40
  RC632_CDRCTRL_TXCD_14443A := 0x01
  RC632_CDRCTRL_RATE_MASK := 0x38
  RC632_CDRCTRL_RATE_848K := 0x00
  RC632_CDRCTRL_RATE_424K := 0x08
  RC632_CDRCTRL_RATE_212K := 0x10
  RC632_CDRCTRL_RATE_106K := 0x18
  RC632_RXCTRL1_GAIN_35DB := 0x03
  RC632_RXCTRL1_ISO14443 := 0x10
  RC632_RXCTRL1_SUBCP_MASK := 0xe0
  RC632_RXCTRL1_SUBCP_1 := 0x00
  RC632_RXCTRL1_SUBCP_2 := 0x20
  RC632_RXCTRL1_SUBCP_4 := 0x40
  RC632_RXCTRL1_SUBCP_8 := 0x60
  RC632_DECCTRL_MANCHESTER := 0x00
  RC632_DECCTRL_BPSK := 0x01
  RC632_DECCTRL_RXFR_14443A := 0x08
  RC632_RXCTRL2_DECSRC_INT := 0x01
  RC632_RXCTRL2_CLK_Q := 0x00
  RC632_CR_PARITY_ENABLE := 0x01
  RC632_CR_PARITY_ODD := 0x02
  RC632_CR_TX_CRC_ENABLE := 0x04
  RC632_CR_RX_CRC_ENABLE := 0x08
  RC632_TMR_START_TX_END := 0x02
  RC632_TMR_STOP_RX_BEGIN := 0x04

/-! ## Transport and trace -/

/-- One call through the transport, with what it answered. -/
inductive Event where
  /-- A `reg_read` of register `reg`; `res` is the byte read, `none` on failure. -/
  | regRead (reg : Nat) (res : Option Nat)
  /-- A `reg_write` of `val` to register `reg`. -/
  | regWrite (reg val : Nat) (ok : Bool)
  /-- A `fifo_read` of `len` bytes; `res` is what was delivered. -/
  | fifoRead (len : Nat) (res : Option (List Nat))
  /-- A `fifo_write` of the bytes `data`, taken from offset `off` of the
  caller's transmit buffer. -/
  | fifoWrite (off : Int) (data : List Nat) (ok : Bool)
  deriving DecidableEq, Repr

/-- The four function pointers of `cci->cc_rc632`, over a transport state `σ`.
A read answers `none` when the C function returns 0. -/
structure Transport (σ : Type) where
  reg_read : σ → Nat → σ × Option Nat
  reg_write : σ → Nat → Nat → σ × Bool
  fifo_read : σ → Nat → σ × Option (List Nat)
  fifo_write : σ → List Nat → σ × Bool

/-- A `struct _cci` as far as this driver sees it: the state behind the transport
and the log of the calls made so far (oldest first). -/
structure Dev (σ : Type) where
  st : σ
  trace : List Event

variable {σ : Type}

/-- Source function `reg_read` (clrc632.c:29). The result lands in a `uint8_t`. -/
def reg_read (T : Transport σ) (cci : Dev σ) (reg : Nat) : Dev σ × Option Nat :=
  let r := T.reg_read cci.st reg
  let val := r.2.map (fun v => v % 256)
  (⟨r.1, cci.trace ++ [Event.regRead reg val]⟩, val)

/-- Source function `reg_write` (clrc632.c:35). Every caller passes an 8-bit value. -/
def reg_write (T : Transport σ) (cci : Dev σ) (reg val : Nat) : Dev σ × Bool :=
  let r := T.reg_write cci.st reg val
  (⟨r.1, cci.trace ++ [Event.regWrite reg val r.2]⟩, r.2)

/-- Source function `fifo_read` (clrc632.c:41). -/
def fifo_read (T : Transport σ) (cci : Dev σ) (len : Nat) :
    Dev σ × Option (List Nat) :=
  let r := T.fifo_read cci.st len
  (⟨r.1, cci.trace ++ [Event.fifoRead len r.2]⟩, r.2)

/-- The `len` bytes of caller memory that start `off` bytes after `buf`. -/
def bytesAt (buf : Int → Nat) (off : Int) (len : Nat) : List Nat :=
  (List.range len).map (fun k => buf (off + (k : Int)))

/-- Source function `fifo_write` (clrc632.c:47), called with the pointer `buf + off`. The length
is a `size_t`, so an `int` argument is converted modulo 2^64. -/
def fifo_write (T : Transport σ) (cci : Dev σ) (buf : Int → Nat) (off len : Int) :
    Dev σ × Bool :=
  let data := bytesAt buf off (len % 2 ^ 64).toNat
  let r := T.fifo_write cci.st data
  (⟨r.1, cci.trace ++ [Event.fifoWrite off data r.2]⟩, r.2)

/-! ## Bit-field register primitives

A call that can fail is bound to a name `r`; `r.1` is the device after the call
and `r.2` its result, so that `if ( !f(..) ) return 0;` reads
`if r.2 = false then (r.1, false) else ..`. -/

/-- The low eight bits of C's `~x`. -/
def bnot8 (x : Nat) : Nat := (x % 256) ^^^ 255

/-- Source function `asic_clear_bits` (clrc632.c:53). -/
def asic_clear_bits (T : Transport σ) (cci : Dev σ) (reg bits : Nat) : Dev σ × Bool :=
  let r := reg_read T cci reg
  match r.2 with
  | none => (r.1, false)
  | some val =>
    if val &&& bits = 0 then (r.1, true)
    else reg_write T r.1 reg (val &&& bnot8 bits)

/-- Source function `asic_set_bits` (clrc632.c:66). -/
def asic_set_bits (T : Transport σ) (cci : Dev σ) (reg bits : Nat) : Dev σ × Bool :=
  let r := reg_read T cci reg
  match r.2 with
  | none => (r.1, false)
  | some val =>
    if val &&& bits = bits then (r.1, true)
    else reg_write T r.1 reg (val ||| bits)

/-- Source function `asic_set_mask` (clrc632.c:79). -/
def asic_set_mask (T : Transport σ) (cci : Dev σ) (reg mask bits : Nat) :
    Dev σ × Bool :=
  let r := reg_read T cci reg
  match r.2 with
  | none => (r.1, false)
  | some val =>
    if val &&& mask = bits then (r.1, true)
    else reg_write T r.1 reg ((val &&& bnot8 mask) ||| (bits &&& mask))

/-- Source function `clear_irqs` (clrc632.c:131). -/
def clear_irqs (K : Consts) (T : Transport σ) (cci : Dev σ) (bits : Nat) : Dev σ × Bool :=
  reg_write T cci K.RC632_REG_INTERRUPT_RQ (bnot8 K.RC632_INT_SET &&& bits)

/-! ## Completion polling -/

/-- The error check of one poll (clrc632.c:154-168), entered with the status
byte `stat`. The result is `true` when the poll returns 0 here. -/
def poll_error_check (K : Consts) (T : Transport σ) (cci : Dev σ) (stat : Nat) :
    Dev σ × Bool :=
  if stat &&& K.RC632_STAT_ERR ≠ 0 then
    let r := reg_read T cci K.RC632_REG_ERROR_FLAG
    match r.2 with
    | none => (r.1, true)
    | some err =>
      if err &&& (K.RC632_ERR_FLAG_COL_ERR ||| K.RC632_ERR_FLAG_PARITY_ERR |||
          K.RC632_ERR_FLAG_FRAMING_ERR ||| 0) ≠ 0 then (r.1, true)
      else (r.1, false)
  else (cci, false)

/-- The timer check of one poll (clrc632.c:169-179), entered with the status
byte `stat`. The result is `true` when the poll returns 0 here. -/
def poll_timer_check (K : Consts) (T : Transport σ) (cci : Dev σ) (stat : Nat) :
    Dev σ × Bool :=
  if stat &&& K.RC632_STAT_IRQ ≠ 0 then
    let r := reg_read T cci K.RC632_REG_INTERRUPT_RQ
    match r.2 with
    | none => (r.1, true)
    | some irq =>
      if irq &&& K.RC632_IRQ_TIMER ≠ 0 ∧ ¬ (irq &&& K.RC632_IRQ_RX ≠ 0) then
        ((clear_irqs K T r.1 K.RC632_IRQ_TIMER).1, true)
      else (r.1, false)
  else (cci, false)

/-- The command check of one poll (clrc632.c:181-187): `some r` when the poll
returns `r` here, `none` when it goes on to sleep and poll again. -/
def poll_command_check (K : Consts) (T : Transport σ) (cci : Dev σ) :
    Dev σ × Option Bool :=
  let r := reg_read T cci K.RC632_REG_COMMAND
  match r.2 with
  | none => (r.1, some false)
  | some cmd =>
    if cmd = 0 then ((clear_irqs K T r.1 K.RC632_IRQ_RX).1, some true)
    else (r.1, none)

/-- One pass through the body of the `while (1)` loop of `wait_idle_timer`
(clrc632.c:152-190). `some r` means the function returns `r` in this pass,
`none` means it sleeps and polls again. -/
def wait_idle_poll (K : Consts) (T : Transport σ) (cci : Dev σ) : Dev σ × Option Bool :=
  let r := reg_read T cci K.RC632_REG_PRIMARY_STATUS
  match r.2 with
  | none => (r.1, some false)
  | some stat =>
    let e := poll_error_check K T r.1 stat
    if e.2 = true then (e.1, some false)
    else
      let t := poll_timer_check K T e.1 stat
      if t.2 = true then (t.1, some false)
      else poll_command_check K T t.1

/-- The `while (1)` loop of `wait_idle_timer`, run for at most `fuel` polls.
`none` means the loop is still polling when the fuel is used up. -/
def wait_idle_loop (K : Consts) (T : Transport σ) : Nat → Dev σ → Option (Dev σ × Bool)
  | 0, _ => none
  | fuel + 1, cci =>
    let p := wait_idle_poll K T cci
    match p.2 with
    | some r => some (p.1, r)
    | none => wait_idle_loop K T fuel p.1

/-- Source function `wait_idle_timer` (clrc632.c:138). -/
def wait_idle_timer (K : Consts) (T : Transport σ) (fuel : Nat) (cci : Dev σ) :
    Option (Dev σ × Bool) :=
  let r := reg_read T cci K.RC632_REG_INTERRUPT_EN
  if r.2 = none then some (r.1, false)
  else
    let w := reg_write T r.1 K.RC632_REG_INTERRUPT_EN
      (K.RC632_IRQ_SET ||| K.RC632_IRQ_TIMER ||| K.RC632_IRQ_IDLE ||| K.RC632_IRQ_RX)
    if w.2 = false then some (w.1, false)
    else wait_idle_loop K T fuel w.1

/-! ## Timer -/

/-- Reading of a `uint64_t` bit pattern as an `int64_t`. -/
def to_int64 (x : Nat) : Int :=
  if x % 2 ^ 64 < 2 ^ 63 then ((x % 2 ^ 64 : Nat) : Int)
  else ((x % 2 ^ 64 : Nat) : Int) - 2 ^ 64

/-- The value of `LLONG_MAX`. -/
def LLONG_MAX : Int := 2 ^ 63 - 1

/-- The locals of `best_prescaler` that live across loop iterations.
`best_divisor` has no initialiser in the source: it is `none` until the loop
assigns it. -/
structure Best where
  best_prescaler : Nat
  best_divisor : Option Nat
  smallest_diff : Int
  deriving DecidableEq, Repr

/-- The clock selected by prescaler `i`: `13560000 / (1 << i)`. -/
def clk (i : Nat) : Nat := 13560000 / (1 <<< i)

/-- The divisor tried for prescaler `i`: `(clk * timeout) / 1000000`, then `++`
(both in `uint64_t`). -/
def tmp_div (timeout i : Nat) : Nat :=
  ((clk i * timeout) % 2 ^ 64 / 1000000 + 1) % 2 ^ 64

/-- The timeout achieved by prescaler `i`: `1000000 / (clk / tmp_div)`. -/
def res (timeout i : Nat) : Nat := 1000000 / (clk i / tmp_div timeout i)

/-- The overshoot: `diff = res - timeout`, a `uint64_t` difference stored in an
`int64_t`. -/
def diff (timeout i : Nat) : Int :=
  to_int64 ((res timeout i + 2 ^ 64 - timeout % 2 ^ 64) % 2 ^ 64)

/-- The body of the `for` loop of `best_prescaler` (clrc632.c:205-224). -/
def best_prescaler_step (timeout : Nat) (b : Best) (i : Nat) : Best :=
  if tmp_div timeout i > 0xff ∨ tmp_div timeout i > clk i then b
  else if diff timeout i < 0 then b
  else if diff timeout i < b.smallest_diff then
    { best_prescaler := i, best_divisor := some (tmp_div timeout i % 256),
      smallest_diff := diff timeout i }
  else b

/-- Source function `best_prescaler` (clrc632.c:195): the pair stored through
`prescaler` and `divisor`. The divisor is `none` when the loop never assigned
`best_divisor`, in which case the C function stores an indeterminate byte. -/
def best_prescaler (timeout : Nat) : Nat × Option Nat :=
  let b := (List.range 21).foldl (best_prescaler_step timeout)
    { best_prescaler := 0, best_divisor := none, smallest_diff := LLONG_MAX }
  (b.best_prescaler, b.best_divisor)

/-- Source constant `TIMER_RELAX_FACTOR` (clrc632.c:234). -/
def TIMER_RELAX_FACTOR : Nat := 10

/-- Source function `timer_set` (clrc632.c:235). `junk` is the indeterminate byte
that the uninitialised local `best_divisor` holds when `best_prescaler` never
assigns it. -/
def timer_set (K : Consts) (T : Transport σ) (junk : Nat) (cci : Dev σ) (timeout : Nat) :
    Dev σ × Bool :=
  let timeout := (timeout * TIMER_RELAX_FACTOR) % 2 ^ 64
  let prescaler := (best_prescaler timeout).1
  let divisor := ((best_prescaler timeout).2).getD (junk % 256)
  let r1 := reg_write T cci K.RC632_REG_TIMER_CLOCK (prescaler &&& 0x1f)
  if r1.2 = false then (r1.1, false)
  else
    let r2 := reg_write T r1.1 K.RC632_REG_TIMER_CONTROL
      (K.RC632_TMR_START_TX_END ||| K.RC632_TMR_STOP_RX_BEGIN)
    if r2.2 = false then (r2.1, false)
    else
      let r3 := clear_irqs K T r2.1 K.RC632_IRQ_TIMER
      if r3.2 = false then (r3.1, false)
      else
        let r4 := reg_write T r3.1 K.RC632_REG_INTERRUPT_EN
          (K.RC632_IRQ_SET ||| K.RC632_IRQ_TIMER)
        if r4.2 = false then (r4.1, false)
        else
          let r5 := reg_write T r4.1 K.RC632_REG_TIMER_RELOAD divisor
          if r5.2 = false then (r5.1, false)
          else (r5.1, true)

/-! ## Transceive -/

/-- The `do ... while (cur_tx_len)` loop of `_clrc632_transceive`
(clrc632.c:344-364), run for at most `fuel` iterations. `off` is
`cur_tx_buf - tx_buf`. The result is `some (cci, false)` when the function
returns 0 from inside the loop, `some (cci, true)` when the loop is left, and
`none` when the fuel is used up first. -/
def tx_loop (K : Consts) (T : Transport σ) (tx_buf : Int → Nat) (tx_len : Nat) :
    Nat → Dev σ → Int → Int → Option (Dev σ × Bool)
  | 0, _, _, _ => none
  | fuel + 1, cci, off, cur_tx_len =>
    let w := fifo_write T cci tx_buf off cur_tx_len
    if w.2 = false then some (w.1, false)
    else
      let c : Dev σ × Bool :=
        if off = 0 then reg_write T w.1 K.RC632_REG_COMMAND K.RC632_CMD_TRANSCEIVE
        else (w.1, true)
      if c.2 = false then some (c.1, false)
      else
        if off + cur_tx_len < (tx_len : Int) then
          let r := reg_read T c.1 K.RC632_REG_FIFO_LENGTH
          match r.2 with
          | none => some (r.1, false)
          | some fifo_fill =>
            if (64 : Int) - (fifo_fill : Int) ≠ 0 then
              tx_loop K T tx_buf tx_len fuel r.1 (off + cur_tx_len) (64 - (fifo_fill : Int))
            else some (r.1, true)
        else some (c.1, true)

/-- The part of `_clrc632_transceive` up to the end of the transmit loop
(clrc632.c:330-364): IDLE command, interrupt clear, timer, FIFO streaming. -/
def transceive_tx (K : Consts) (T : Transport σ) (fuel junk : Nat) (cci : Dev σ)
    (tx_buf : Int → Nat) (tx_len : Nat) (timer : Nat) : Option (Dev σ × Bool) :=
  let cur_tx_len : Int := if tx_len > 64 then 64 else (tx_len : Int)
  let r1 := reg_write T cci K.RC632_REG_COMMAND K.RC632_CMD_IDLE
  if r1.2 = false then some (r1.1, false)
  else
    let r2 := reg_write T r1.1 K.RC632_REG_INTERRUPT_RQ 0x7f
    if r2.2 = false then some (r2.1, false)
    else
      let r3 := timer_set K T junk r2.1 timer
      if r3.2 = false then some (r3.1, false)
      else tx_loop K T tx_buf tx_len fuel r3.1 0 cur_tx_len

/-- What `_clrc632_transceive` leaves behind: the device, the return value, the
final `*rx_len` and the contents of the caller's buffer `rx_buf` (the whole
buffer, not only the bytes received). -/
structure Xfer (σ : Type) where
  cci : Dev σ
  ret : Bool
  rx_len : Nat
  rx_buf : List Nat

/-- The caller's buffer `buf` after a FIFO read of `len` bytes into its start
delivered `data`: the transport stores at `buf[0]`, `buf[1]`, .. and is told to
store `len` bytes, so only the first `len` positions can change and every
later byte of the buffer is kept. -/
def rx_store (buf data : List Nat) (len : Nat) : List Nat :=
  data.take len ++ buf.drop (data.take len).length

/-- The part of `_clrc632_transceive` after the completion wait
(clrc632.c:373-387): read the fill level, narrow `*rx_len`, read the FIFO into
the start of `rx_buf`. A FIFO read that fails is taken to store nothing. -/
def transceive_rx (K : Consts) (T : Transport σ) (cci : Dev σ) (rx_buf : List Nat)
    (rx_len : Nat) : Xfer σ :=
  let r := reg_read T cci K.RC632_REG_FIFO_LENGTH
  match r.2 with
  | none => ⟨r.1, false, rx_len, rx_buf⟩
  | some rx_avail =>
    let rx_len := if rx_avail > rx_len then rx_len
      else if rx_len > rx_avail then rx_avail else rx_len
    if rx_avail = 0 then ⟨r.1, false, rx_len, rx_buf⟩
    else
      let f := fifo_read T r.1 rx_len
      match f.2 with
      | none => ⟨f.1, false, rx_len, rx_buf⟩
      | some data => ⟨f.1, true, rx_len, rx_store rx_buf data rx_len⟩

/-- Source function `_clrc632_transceive` (clrc632.c:315). `tx_buf` is the memory
behind the transmit pointer, `rx_buf` and `rx_len` are the initial contents of
the receive buffer and of `*rx_len`; `fuel` bounds each of the two loops.
`toggle` is not used by the source. -/
def _clrc632_transceive (K : Consts) (T : Transport σ) (fuel junk : Nat) (cci : Dev σ)
    (tx_buf : Int → Nat) (tx_len : Nat) (rx_buf : List Nat) (rx_len : Nat)
    (timer : Nat) (_toggle : Nat) : Option (Xfer σ) :=
  match transceive_tx K T fuel junk cci tx_buf tx_len timer with
  | none => none
  | some (cci, false) => some ⟨cci, false, rx_len, rx_buf⟩
  | some (cci, true) =>
    match wait_idle_timer K T fuel cci with
    | none => none
    | some (cci, false) => some ⟨cci, false, rx_len, rx_buf⟩
    | some (cci, true) => some (transceive_rx K T cci rx_buf rx_len)

/-! ## Bit-rate switching -/

/-- One element of the anonymous struct array `rate` (clrc632.c:445). -/
structure Rate where
  subc_pulses : Nat
  rx_coding : Nat
  rx_threshold : Nat
  bpsk_dem_ctrl : Nat
  rate : Nat
  mod_width : Nat
  deriving DecidableEq, Repr

/-- The table `rate[]` (clrc632.c:452). The designators
`RFID_14443A_SPEED_106K .. _848K` come from `rfid.h`, which is not part of the
sources; they are taken to be 0, 1, 2, 3 in this order, the four indices the
spec gives for the speed enumeration. -/
def rate (K : Consts) : List Rate :=
  [ { subc_pulses := K.RC632_RXCTRL1_SUBCP_8, rx_coding := K.RC632_DECCTRL_MANCHESTER,
      rx_threshold := 0x88, bpsk_dem_ctrl := 0x00, rate := K.RC632_CDRCTRL_RATE_106K,
      mod_width := 0x13 },
    { subc_pulses := K.RC632_RXCTRL1_SUBCP_4, rx_coding := K.RC632_DECCTRL_BPSK,
      rx_threshold := 0x50, bpsk_dem_ctrl := 0x0c, rate := K.RC632_CDRCTRL_RATE_212K,
      mod_width := 0x07 },
    { subc_pulses := K.RC632_RXCTRL1_SUBCP_2, rx_coding := K.RC632_DECCTRL_BPSK,
      rx_threshold := 0x50, bpsk_dem_ctrl := 0x0c, rate := K.RC632_CDRCTRL_RATE_424K,
      mod_width := 0x03 },
    { subc_pulses := K.RC632_RXCTRL1_SUBCP_1, rx_coding := K.RC632_DECCTRL_BPSK,
      rx_threshold := 0x50, bpsk_dem_ctrl := 0x0c, rate := K.RC632_CDRCTRL_RATE_848K,
      mod_width := 0x01 } ]

/-- Source function `_clrc632_set_speed` (clrc632.c:487). The lookup `rate[i]`
answers `none` exactly when `i >= ARRAY_SIZE(rate)`. -/
def _clrc632_set_speed (K : Consts) (T : Transport σ) (cci : Dev σ) (i : Nat) :
    Dev σ × Bool :=
  match (rate K)[i]? with
  | none => (cci, false)
  | some e =>
    let r1 := asic_set_mask T cci K.RC632_REG_RX_CONTROL1 K.RC632_RXCTRL1_SUBCP_MASK
      e.subc_pulses
    if r1.2 = false then (r1.1, false)
    else
      let r2 := asic_set_mask T r1.1 K.RC632_REG_DECODER_CONTROL K.RC632_DECCTRL_BPSK
        e.rx_coding
      if r2.2 = false then (r2.1, false)
      else
        let r3 := reg_write T r2.1 K.RC632_REG_RX_THRESHOLD e.rx_threshold
        if r3.2 = false then (r3.1, false)
        else
          let r4 : Dev σ × Bool :=
            if e.rx_coding = K.RC632_DECCTRL_BPSK then
              reg_write T r3.1 K.RC632_REG_BPSK_DEM_CONTROL e.bpsk_dem_ctrl
            else (r3.1, true)
          if r4.2 = false then (r4.1, false)
          else
            let r5 := asic_set_mask T r4.1 K.RC632_CDRCTRL_RATE_MASK K.RC632_DECCTRL_BPSK
              e.rate
            if r5.2 = false then (r5.1, false)
            else
              let r6 := reg_write T r5.1 K.RC632_REG_MOD_WIDTH e.mod_width
              if r6.2 = false then (r6.1, false)
              else (r6.1, true)

/-! ## Transports and trace projections used in the statements -/

/-- A faithful register file: a read returns the last value written to that
register, and every operation succeeds. The FIFO is not modelled by it. -/
def regfile : Transport (Nat → Nat) where
  reg_read := fun s reg => (s, some (s reg))
  reg_write := fun s reg val => (Function.update s reg val, true)
  fifo_read := fun s len => (s, some (List.replicate len 0))
  fifo_write := fun s _ => (s, true)

/-- A transport stub: a register read answers from the fixed table `tbl`, a
FIFO read delivers the first `len` bytes of `fifo`, writes are accepted and
dropped. It has no state. -/
def stub (tbl : Nat → Nat) (fifo : List Nat) : Transport Unit where
  reg_read := fun s reg => (s, some (tbl reg))
  reg_write := fun s _ _ => (s, true)
  fifo_read := fun s len => (s, some (fifo.take len))
  fifo_write := fun s _ => (s, true)

/-- Whether an event is a FIFO read. -/
def isFifoRead : Event → Bool
  | Event.fifoRead _ _ => true
  | _ => false

/-- The FIFO reads recorded in a trace. -/
def fifoReads (tr : List Event) : List Event := tr.filter isFifoRead

/-- The stub of the end-to-end scenario: COMMAND reads 0 and FIFO_LENGTH reads 2. -/
def reqaTable : Nat → Nat := fun r => if r = 0x04 then 2 else 0

/-- The stub of the timeout scenario: PRIMARY_STATUS reads IRQ, INTERRUPT_RQ
reads TIMER, every other register reads 0. -/
def timeoutTable : Nat → Nat := fun r => if r = 0x03 then 0x08 else if r = 0x07 then 0x20 else 0

/-- The checks a prescaler has to pass in `best_prescaler` to be considered
(clrc632.c:211 and 217): the divisor fits a byte, does not exceed the clock,
and the achieved timeout is not below the requested one. -/
def candidate (timeout i : Nat) : Prop :=
  ¬ (tmp_div timeout i > 0xff ∨ tmp_div timeout i > clk i) ∧ ¬ (diff timeout i < 0)

instance (timeout i : Nat) : Decidable (candidate timeout i) := by
  unfold candidate; infer_instance

/-- The FIFO writes recorded in a trace, as (offset into the transmit buffer,
number of bytes) pairs. -/
def fifoWriteSpans : List Event → List (Int × Nat)
  | [] => []
  | Event.fifoWrite off data _ :: tr => (off, data.length) :: fifoWriteSpans tr
  | _ :: tr => fifoWriteSpans tr

/-- The payloads of the FIFO writes recorded in a trace, concatenated. -/
def fifoWritten : List Event → List Nat
  | [] => []
  | Event.fifoWrite _ data _ :: tr => data ++ fifoWritten tr
  | _ :: tr => fifoWritten tr

/-- A transmit buffer of `n` bytes, byte `k` holding `k`, followed by memory
that does not belong to it and reads 0xEE. -/
def countingBuf (n : Nat) : Int → Nat :=
  fun k => if 0 ≤ k ∧ k < (n : Int) then k.toNat else 0xEE

/-- A register file as left by `_clrc632_14443a_init`: CODER_CONTROL holds
`RC632_CDRCTRL_TXCD_14443A | RC632_CDRCTRL_RATE_106K`. -/
def regsAt106k : Nat → Nat := fun r => if r = 0x14 then 0x19 else 0

/-! ## Register tables, power and RF mode -/

/-- Source type `struct reg_file` (clrc632.c:24). -/
structure reg_file where
  reg : Nat
  val : Nat
  deriving DecidableEq, Repr

/-- Source function `reg_write_batch` (clrc632.c:93). The table `r` is a list and
`num` is its length; the recursion follows the `for` loop entry by entry. -/
def reg_write_batch (T : Transport σ) : Dev σ → List reg_file → Dev σ × Bool
  | cci, [] => (cci, true)
  | cci, e :: rest =>
    let w := reg_write T cci e.reg e.val
    if w.2 = false then (w.1, false)
    else reg_write_batch T w.1 rest

/-- Source function `asic_power` (clrc632.c:104). The parameter `on`, written
`on_` here, is an `unsigned int` tested for non-zero. -/
def asic_power (K : Consts) (T : Transport σ) (cci : Dev σ) (on_ : Nat) : Dev σ × Bool :=
  if on_ ≠ 0 then asic_clear_bits T cci K.RC632_REG_CONTROL K.RC632_CONTROL_POWERDOWN
  else asic_set_bits T cci K.RC632_REG_CONTROL K.RC632_CONTROL_POWERDOWN

/-- Source function `_clrc632_rf_power` (clrc632.c:115). The parameter `on`,
written `on_` here, is an `unsigned int` tested for non-zero. -/
def _clrc632_rf_power (K : Consts) (T : Transport σ) (cci : Dev σ) (on_ : Nat) :
    Dev σ × Bool :=
  if on_ ≠ 0 then
    asic_clear_bits T cci K.RC632_REG_TX_CONTROL
      (K.RC632_TXCTRL_TX1_RF_EN ||| K.RC632_TXCTRL_TX2_RF_EN)
  else
    asic_set_bits T cci K.RC632_REG_TX_CONTROL
      (K.RC632_TXCTRL_TX1_RF_EN ||| K.RC632_TXCTRL_TX2_RF_EN)

/-- Source function `flush_fifo` (clrc632.c:126). -/
def flush_fifo (K : Consts) (T : Transport σ) (cci : Dev σ) : Dev σ × Bool :=
  reg_write T cci K.RC632_REG_CONTROL K.RC632_CONTROL_FIFO_FLUSH

/-- The table `rf_14443a_init[]` (clrc632.c:390). -/
def rf_14443a_init (K : Consts) : List reg_file :=
  [ { reg := K.RC632_REG_TX_CONTROL,
      val := K.RC632_TXCTRL_MOD_SRC_INT ||| K.RC632_TXCTRL_TX2_INV |||
        K.RC632_TXCTRL_FORCE_100_ASK ||| K.RC632_TXCTRL_TX2_RF_EN |||
        K.RC632_TXCTRL_TX1_RF_EN },
    { reg := K.RC632_REG_CW_CONDUCTANCE, val := 0x3f },
    { reg := K.RC632_REG_MOD_CONDUCTANCE, val := 0x3f },
    { reg := K.RC632_REG_CODER_CONTROL,
      val := K.RC632_CDRCTRL_TXCD_14443A ||| K.RC632_CDRCTRL_RATE_106K },
    { reg := K.RC632_REG_MOD_WIDTH, val := 0x13 },
    { reg := K.RC632_REG_MOD_WIDTH_SOF, val := 0x3f },
    { reg := K.RC632_REG_TYPE_B_FRAMING, val := 0 },
    { reg := K.RC632_REG_RX_CONTROL1,
      val := K.RC632_RXCTRL1_GAIN_35DB ||| K.RC632_RXCTRL1_ISO14443 |||
        K.RC632_RXCTRL1_SUBCP_8 },
    { reg := K.RC632_REG_DECODER_CONTROL,
      val := K.RC632_DECCTRL_MANCHESTER ||| K.RC632_DECCTRL_RXFR_14443A },
    { reg := K.RC632_REG_BIT_PHASE, val := 0xa9 },
    { reg := K.RC632_REG_RX_THRESHOLD, val := 0xff },
    { reg := K.RC632_REG_BPSK_DEM_CONTROL, val := 0 },
    { reg := K.RC632_REG_RX_CONTROL2,
      val := K.RC632_RXCTRL2_DECSRC_INT ||| K.RC632_RXCTRL2_CLK_Q },
    { reg := K.RC632_REG_RX_WAIT, val := 6 },
    { reg := K.RC632_REG_CHANNEL_REDUNDANCY,
      val := K.RC632_CR_PARITY_ENABLE ||| K.RC632_CR_PARITY_ODD },
    { reg := K.RC632_REG_CRC_PRESET_LSB, val := 0x63 },
    { reg := K.RC632_REG_CRC_PRESET_MSB, val := 0x63 } ]

/-- Source function `_clrc632_14443a_init` (clrc632.c:437). -/
def _clrc632_14443a_init (K : Consts) (T : Transport σ) (cci : Dev σ) : Dev σ × Bool :=
  let f := flush_fifo K T cci
  if f.2 = false then (f.1, false)
  else reg_write_batch T f.1 (rf_14443a_init K)

/-- The flag bits of `rf_mode.flags` that `clrc632.c` takes from `rfid.h`. The
header is not part of the sources, so `_clrc632_set_rf_mode` is parameterised
over their values. -/
structure RfConsts where
  RF_CRYPTO1 : Nat
  RF_TX_CRC : Nat
  RF_RX_CRC : Nat
  RF_PARITY_ENABLE : Nat
  RF_PARITY_EVEN : Nat

/-- Modelled from the spec: the flag set of an RF mode, "{CRYPTO1 enabled,
TX-CRC, RX-CRC, parity-enabled, parity-even/odd}", as five distinct bits in
the order the spec lists them. Used wherever the driver is evaluated on a
concrete input. -/
def rfid : RfConsts where
  RF_CRYPTO1 := 0x01
  RF_TX_CRC := 0x02
  RF_RX_CRC := 0x04
  RF_PARITY_ENABLE := 0x08
  RF_PARITY_EVEN := 0x10

/-- Source type `struct rf_mode` (declared in `rfid.h`), with the three members
that `clrc632.c` reads. -/
structure rf_mode where
  tx_last_bits : Nat
  rx_align : Nat
  flags : Nat
  deriving DecidableEq, Repr

/-- The channel-redundancy byte `red` assembled by `_clrc632_set_rf_mode`
(clrc632.c:284-292). -/
def red (K : Consts) (F : RfConsts) (rf : rf_mode) : Nat :=
  let red := 0
  let red := if rf.flags &&& F.RF_TX_CRC ≠ 0 then red ||| K.RC632_CR_TX_CRC_ENABLE else red
  let red := if rf.flags &&& F.RF_RX_CRC ≠ 0 then red ||| K.RC632_CR_RX_CRC_ENABLE else red
  let red := if rf.flags &&& F.RF_PARITY_ENABLE ≠ 0 then red ||| K.RC632_CR_PARITY_ENABLE
    else red
  let red := if ¬ (rf.flags &&& F.RF_PARITY_EVEN ≠ 0) then red ||| K.RC632_CR_PARITY_ODD
    else red
  red

/-- Source function `_clrc632_set_rf_mode` (clrc632.c:266). The value for
BIT_FRAMING is an `int` expression narrowed to the `uint8_t` parameter. -/
def _clrc632_set_rf_mode (K : Consts) (F : RfConsts) (T : Transport σ) (cci : Dev σ)
    (rf : rf_mode) : Dev σ × Bool :=
  let r1 := reg_write T cci K.RC632_REG_BIT_FRAMING
    (((rf.rx_align <<< 4) ||| rf.tx_last_bits) % 256)
  if r1.2 = false then (r1.1, false)
  else
    let r2 : Dev σ × Bool :=
      if rf.flags &&& F.RF_CRYPTO1 ≠ 0 then
        asic_clear_bits T r1.1 K.RC632_REG_CONTROL K.RC632_CONTROL_CRYPTO1_ON
      else
        asic_set_bits T r1.1 K.RC632_REG_CONTROL K.RC632_CONTROL_CRYPTO1_ON
    if r2.2 = false then (r2.1, false)
    else
      let r3 := reg_write T r2.1 K.RC632_REG_CHANNEL_REDUNDANCY (red K F rf)
      if r3.2 = false then (r3.1, false)
      else (r3.1, true)

/-- Source function `_clrc632_init` (clrc632.c:543). The two `usleep` calls have
no effect on the register traffic and are left out. -/
def _clrc632_init (K : Consts) (T : Transport σ) (cci : Dev σ) : Dev σ × Bool :=
  let r1 := asic_power K T cci 0
  if r1.2 = false then (r1.1, false)
  else
    let r2 := asic_power K T r1.1 1
    if r2.2 = false then (r2.1, false)
    else
      let r3 := asic_set_bits T r2.1 K.RC632_REG_PAGE0 0
      if r3.2 = false then (r3.1, false)
      else
        let r4 := asic_set_bits T r3.1 K.RC632_REG_TX_CONTROL 0x5b
        if r4.2 = false then (r4.1, false)
        else
          let r5 := _clrc632_rf_power K T r4.1 0
          if r5.2 = false then (r5.1, false)
          else
            let r6 := _clrc632_rf_power K T r5.1 1
            if r6.2 = false then (r6.1, false)
            else (r6.1, true)

/-- A register file in which every register reads `v`. -/
def regsAll (v : Nat) : Nat → Nat := fun _ => v

/-- A register file with paging selected in PAGE0 (0x80) and one stray bit
(0x04) in TX_CONTROL, every other register 0. -/
def regsBeforeInit : Nat → Nat :=
  fun r => if r = 0x00 then 0x80 else if r = 0x11 then 0x04 else 0

/-- The values written to register `reg` in a trace, oldest first. -/
def regWritesTo (reg : Nat) : List Event → List Nat
  | [] => []
  | Event.regWrite r v _ :: tr =>
    if r = reg then v :: regWritesTo reg tr else regWritesTo reg tr
  | _ :: tr => regWritesTo reg tr

/-- A transport that keeps what the device was sent: its state is the list of
the register writes it has received, oldest first, as (register, value) pairs.
A register read answers from the fixed table `tbl`, a FIFO read delivers the
first `len` bytes of `fifo`. -/
def recorder (tbl : Nat → Nat) (fifo : List Nat) : Transport (List (Nat × Nat)) where
  reg_read := fun s reg => (s, some (tbl reg))
  reg_write := fun s reg val => (s ++ [(reg, val)], true)
  fifo_read := fun s len => (s, some (fifo.take len))
  fifo_write := fun s _ => (s, true)

/-- The transport state after the register writes of the entries `es` have been
made on the transport, in order, starting from state `s`. -/
def writes_done (T : Transport σ) (s : σ) (es : List reg_file) : σ :=
  es.foldl (fun s e => (T.reg_write s e.reg e.val).1) s

/-- Whether the transport accepts the write of entry `n` of the table `es` when
the entries before it have been written, starting from state `s`. An index past
the end of the table counts as accepted. -/
def write_accepted (T : Transport σ) (s : σ) (es : List reg_file) (n : Nat) : Bool :=
  match es[n]? with
  | none => true
  | some e => (T.reg_write (writes_done T s (es.take n)) e.reg e.val).2

/-- A transport like `regfile`, except that a write to register `bad` is
refused and changes nothing. -/
def regfileExcept (bad : Nat) : Transport (Nat → Nat) where
  reg_read := fun s reg => (s, some (s reg))
  reg_write := fun s reg val => if reg = bad then (s, false) else (Function.update s reg val, true)
  fifo_read := fun s len => (s, some (List.replicate len 0))
  fifo_write := fun s _ => (s, true)

end Clrc632

namespace Emv

/-! ## Tag lookup of `emv.c` -/

/-- Source type `struct ber_tag` (ber.h:9) as far as `find_tag` reads it: `tag`
is the memory behind the `const char *`, byte `k` at `tag k`, and `tag_len` its
length. The callback `op` is not read by the lookup. -/
structure ber_tag where
  tag : Nat → Nat
  tag_len : Nat

/-- The C library function `memcmp` on the bytes `k`, `k + 1`, .. of two buffers:
the difference at the first of the next `n` positions where they differ, 0 if
there is none. -/
def memcmp_at (s1 s2 : Nat → Nat) (k : Nat) : Nat → Int
  | 0 => 0
  | n + 1 =>
    if s1 k ≠ s2 k then (s1 k : Int) - (s2 k : Int)
    else memcmp_at s1 s2 (k + 1) n

/-- The C library function `memcmp(s1, s2, n)`. Only its sign is used. -/
def memcmp (s1 s2 : Nat → Nat) (n : Nat) : Int := memcmp_at s1 s2 0 n

/-- Source function `tag_cmp` (emv.c:15). -/
def tag_cmp (tag : ber_tag) (idb : Nat → Nat) (len : Nat) : Int :=
  if tag.tag_len < len then 1
  else if tag.tag_len > len then -1
  else memcmp idb tag.tag len

/-- The `while` loop of `find_tag` (emv.c:29-42). The pointer `tags` of the
source is `base` entries into the table, and the result is the offset of the
entry found from the start of the table, `none` for `NULL`. The recursion is
well founded: `num_tags` drops in every iteration. -/
def find_tag_from (tags : Nat → ber_tag) (idb : Nat → Nat) (tag_len : Nat)
    (base num_tags : Nat) : Option Nat :=
  if h : num_tags = 0 then none
  else
    if tag_cmp (tags (base + num_tags / 2)) idb tag_len < 0 then
      find_tag_from tags idb tag_len base (num_tags / 2)
    else if tag_cmp (tags (base + num_tags / 2)) idb tag_len > 0 then
      find_tag_from tags idb tag_len (base + (num_tags / 2 + 1))
        (num_tags - (num_tags / 2 + 1))
    else some (base + num_tags / 2)
termination_by num_tags
decreasing_by
  all_goals simp_wf
  · omega
  · omega

/-- Source function `find_tag` (emv.c:24). The table is the memory behind
`tags`, entry `i` at `tags i`. -/
def find_tag (tags : Nat → ber_tag) (num_tags : Nat) (idb : Nat → Nat) (tag_len : Nat) :
    Option Nat :=
  find_tag_from tags idb tag_len 0 num_tags

/-- The order of the table: by `tag_len`, then by `memcmp` of the tag bytes. -/
def tag_lt (a b : ber_tag) : Prop :=
  a.tag_len < b.tag_len ∨ (a.tag_len = b.tag_len ∧ memcmp a.tag b.tag a.tag_len < 0)

instance (a b : ber_tag) : Decidable (tag_lt a b) := by
  unfold tag_lt; infer_instance

/-- An entry is the one looked for: its length is the key length and its bytes
are the key bytes. -/
def tag_matches (e : ber_tag) (idb : Nat → Nat) (len : Nat) : Prop :=
  e.tag_len = len ∧ ∀ k, k < len → e.tag k = idb k

/-- A buffer holding the bytes of a list, followed by zeros. -/
def bytes (l : List Nat) : Nat → Nat := fun k => l.getD k 0

/-- A table of three tags in ascending order: 0x5A, 0x9F26, 0x9F27. -/
def sampleTags : Nat → ber_tag :=
  fun i =>
    if i = 0 then ⟨bytes [0x5a], 1⟩
    else if i = 1 then ⟨bytes [0x9f, 0x26], 2⟩
    else ⟨bytes [0x9f, 0x27], 2⟩

/-! ## PIN block of `emv.c` -/

/-- The C library function `isdigit` on a character given by its byte value:
true for `'0'` .. `'9'`. -/
def isdigit (c : Nat) : Bool := decide (0x30 ≤ c) && decide (c ≤ 0x39)

/-- The C library function `strlen` on a string given by the list of its
characters: the number of characters before the first NUL (the end of the
list stands for the terminating NUL). -/
def strlen (s : List Nat) : Nat := (s.takeWhile (fun c => c ≠ 0)).length

/-- The `for` loop of `_emv_pin2pb` (emv.c:107-116), started at index `i` on the
characters `pin[i]`, `pin[i + 1]`, .. that are left. The block `pb` is the
memory behind the `emv_pb_t`, byte `j` at `pb j`; stores narrow to `uint8_t`.
The result is `false` when the function returns 0 from inside the loop. -/
def pin2pb_loop : List Nat → Nat → (Nat → Nat) → Bool × (Nat → Nat)
  | [], _, pb => (true, pb)
  | c :: rest, i, pb =>
    if c = 0 then (true, pb)
    else if isdigit c = false then (false, pb)
    else if i &&& 0x1 ≠ 0 then
      pin2pb_loop rest (i + 1)
        (Function.update pb (1 + (i >>> 1))
          (((pb (1 + (i >>> 1)) &&& 0xf0) ||| ((c - 0x30) &&& 0xf)) % 256))
    else
      pin2pb_loop rest (i + 1)
        (Function.update pb (1 + (i >>> 1)) ((((c - 0x30) <<< 4) ||| 0xf) % 256))

/-- Source function `_emv_pin2pb` (emv.c:95). `pin` is the list of the
characters of the string, `pb` the memory behind the block on entry, and
`EMV_PIN_BLOCK_LEN` the size of `emv_pb_t`, which comes from `emv.h` (not part
of the sources) and is a parameter. The result is the return value and the
block on return. -/
def _emv_pin2pb (EMV_PIN_BLOCK_LEN : Nat) (pin : List Nat) (pb : Nat → Nat) :
    Bool × (Nat → Nat) :=
  let plen := strlen pin
  if plen < 4 ∨ plen > 12 then (false, pb)
  else
    let pb1 : Nat → Nat := fun j => if j < EMV_PIN_BLOCK_LEN then 0xff else pb j
    let pb2 := Function.update pb1 0 ((0x20 ||| (plen &&& 0xf)) % 256)
    pin2pb_loop pin 0 pb2

/-- The `k`-th nibble of `pb[1..]`, high nibble of each byte first. -/
def nibble (pb : Nat → Nat) (k : Nat) : Nat :=
  if k % 2 = 0 then (pb (1 + k / 2) >>> 4) &&& 0xf else pb (1 + k / 2) &&& 0xf

/-- The characters of the PIN "12345". -/
def samplePin : List Nat := [0x31, 0x32, 0x33, 0x34, 0x35]

/-- The C string held by the characters `s`: the characters before the first
NUL (all of `s` when there is none). -/
def cstring (s : List Nat) : List Nat := s.takeWhile (fun c => c ≠ 0)

end Emv

namespace Clrc632

variable {σ : Type}

/-! # Properties -/

/-! ## Bit arithmetic on bytes -/

theorem testBit_bnot8 (x i : Nat) : (bnot8 x).testBit i = (decide (i < 8) && !x.testBit i) := by
  have h255 : (255 : Nat) = 2 ^ 8 - 1 := by norm_num
  have h256 : (256 : Nat) = 2 ^ 8 := by norm_num
  unfold bnot8
  rw [Nat.testBit_xor, h256, Nat.testBit_mod_two_pow, h255, Nat.testBit_two_pow_sub_one]
  by_cases h : i < 8 <;> simp [h]

theorem testBit_of_lt_256 {v : Nat} (hv : v < 256) {i : Nat} (hi : 8 ≤ i) : v.testBit i = false := by
  apply Nat.testBit_lt_two_pow
  calc v < 2 ^ 8 := by simpa using hv
    _ ≤ 2 ^ i := Nat.pow_le_pow_right (by norm_num) hi

theorem land_bnot8_land (v m : Nat) : (v &&& bnot8 m) &&& m = 0 := by
  apply Nat.eq_of_testBit_eq
  intro i
  simp only [Nat.testBit_and, testBit_bnot8, Nat.zero_testBit]
  cases v.testBit i <;> cases m.testBit i <;> simp

theorem land_bnot8_lt (v m : Nat) : v &&& bnot8 m < 256 := by
  have : bnot8 m < 256 := by
    unfold bnot8
    have : m % 256 < 2 ^ 8 := by have := Nat.mod_lt m (show 256 > 0 by norm_num); simpa using this
    have := Nat.xor_lt_two_pow this (show 255 < 2 ^ 8 by norm_num)
    simpa using this
  exact lt_of_le_of_lt Nat.and_le_right this

theorem land_bnot8_of_land_eq_zero {v m : Nat} (hv : v < 256) (h : v &&& m = 0) :
    v &&& bnot8 m = v := by
  apply Nat.eq_of_testBit_eq
  intro i
  have hi := congrArg (fun x => x.testBit i) h
  simp only [Nat.testBit_and, Nat.zero_testBit] at hi
  simp only [Nat.testBit_and, testBit_bnot8]
  by_cases h8 : i < 8
  · cases hv' : v.testBit i <;> cases hm' : m.testBit i <;> simp_all
  · rw [testBit_of_lt_256 hv (by omega)]; simp

theorem lor_land_self (v m : Nat) : (v ||| m) &&& m = m := by
  apply Nat.eq_of_testBit_eq
  intro i
  simp only [Nat.testBit_and, Nat.testBit_or]
  cases v.testBit i <;> cases m.testBit i <;> simp

theorem lor_lt_256 {v m : Nat} (hv : v < 256) (hm : m < 256) : v ||| m < 256 := by
  have := Nat.or_lt_two_pow (n := 8) (by simpa using hv) (by simpa using hm)
  simpa using this

theorem lor_of_land_eq {v m : Nat} (h : v &&& m = m) : v ||| m = v := by
  apply Nat.eq_of_testBit_eq
  intro i
  have hi := congrArg (fun x => x.testBit i) h
  simp only [Nat.testBit_and] at hi
  simp only [Nat.testBit_or]
  cases hv' : v.testBit i <;> cases hm' : m.testBit i <;> simp_all

/-! ## FIFO reads in the trace -/


theorem reg_read_fifoReads (T : Transport σ) (d : Dev σ) (r : Nat) :
    fifoReads (reg_read T d r).1.trace = fifoReads d.trace := by
  simp [reg_read, fifoReads, List.filter_append, isFifoRead]

theorem reg_write_fifoReads (T : Transport σ) (d : Dev σ) (r v : Nat) :
    fifoReads (reg_write T d r v).1.trace = fifoReads d.trace := by
  simp [reg_write, fifoReads, List.filter_append, isFifoRead]

theorem fifo_write_fifoReads (T : Transport σ) (d : Dev σ) (b : Int → Nat) (o l : Int) :
    fifoReads (fifo_write T d b o l).1.trace = fifoReads d.trace := by
  simp [fifo_write, fifoReads, List.filter_append, isFifoRead]

theorem clear_irqs_fifoReads (K : Consts) (T : Transport σ) (d : Dev σ) (b : Nat) :
    fifoReads (clear_irqs K T d b).1.trace = fifoReads d.trace := by
  simp [clear_irqs, reg_write_fifoReads]

theorem timer_set_fifoReads (K : Consts) (T : Transport σ) (junk : Nat) (d : Dev σ) (t : Nat) :
    fifoReads (timer_set K T junk d t).1.trace = fifoReads d.trace := by
  unfold timer_set
  simp only []
  split_ifs <;> simp [reg_write_fifoReads, clear_irqs_fifoReads]

theorem tx_loop_fifoReads (K : Consts) (T : Transport σ) (buf : Int → Nat) (n : Nat) :
    ∀ (fuel : Nat) (d : Dev σ) (off len : Int) (d' : Dev σ) (b : Bool),
      tx_loop K T buf n fuel d off len = some (d', b) →
      fifoReads d'.trace = fifoReads d.trace := by
  intro fuel
  induction fuel with
  | zero => intro d off len d' b h; simp [tx_loop] at h
  | succ fuel ih =>
    intro d off len d' b h
    unfold tx_loop at h
    simp only [] at h
    split_ifs at h with h1 h2 h3 h4
    all_goals first
      | (simp only [Option.some.injEq, Prod.mk.injEq] at h
         obtain ⟨rfl, -⟩ := h
         simp [reg_write_fifoReads, fifo_write_fifoReads, reg_read_fifoReads])
      | skip
    all_goals
      split at h
      · simp only [Option.some.injEq, Prod.mk.injEq] at h
        obtain ⟨rfl, -⟩ := h
        simp [reg_write_fifoReads, fifo_write_fifoReads, reg_read_fifoReads]
      · split_ifs at h
        · rw [ih _ _ _ _ _ h]
          simp [reg_write_fifoReads, fifo_write_fifoReads, reg_read_fifoReads]
        · simp only [Option.some.injEq, Prod.mk.injEq] at h
          obtain ⟨rfl, -⟩ := h
          simp [reg_write_fifoReads, fifo_write_fifoReads, reg_read_fifoReads]

theorem transceive_tx_fifoReads (K : Consts) (T : Transport σ) (fuel junk : Nat) (d : Dev σ)
    (buf : Int → Nat) (n timer : Nat) (d' : Dev σ) (b : Bool)
    (h : transceive_tx K T fuel junk d buf n timer = some (d', b)) :
    fifoReads d'.trace = fifoReads d.trace := by
  unfold transceive_tx at h
  simp only [] at h
  split_ifs at h
  all_goals first
    | (simp only [Option.some.injEq, Prod.mk.injEq] at h
       obtain ⟨rfl, -⟩ := h
       simp [reg_write_fifoReads, timer_set_fifoReads])
    | (rw [tx_loop_fifoReads K T buf n _ _ _ _ _ _ h]
       simp [reg_write_fifoReads, timer_set_fifoReads])

theorem poll_error_check_fifoReads (K : Consts) (T : Transport σ) (d : Dev σ) (stat : Nat) :
    fifoReads (poll_error_check K T d stat).1.trace = fifoReads d.trace := by
  unfold poll_error_check
  simp only []
  split_ifs
  · split
    · simp [reg_read_fifoReads]
    · split_ifs <;> simp [reg_read_fifoReads]
  · rfl

theorem poll_timer_check_fifoReads (K : Consts) (T : Transport σ) (d : Dev σ) (stat : Nat) :
    fifoReads (poll_timer_check K T d stat).1.trace = fifoReads d.trace := by
  unfold poll_timer_check
  simp only []
  split_ifs
  · split
    · simp [reg_read_fifoReads]
    · split_ifs <;> simp [reg_read_fifoReads, clear_irqs_fifoReads]
  · rfl

theorem poll_command_check_fifoReads (K : Consts) (T : Transport σ) (d : Dev σ) :
    fifoReads (poll_command_check K T d).1.trace = fifoReads d.trace := by
  unfold poll_command_check
  simp only []
  split
  · simp [reg_read_fifoReads]
  · split_ifs <;> simp [reg_read_fifoReads, clear_irqs_fifoReads]

theorem wait_idle_poll_fifoReads (K : Consts) (T : Transport σ) (d : Dev σ) :
    fifoReads (wait_idle_poll K T d).1.trace = fifoReads d.trace := by
  unfold wait_idle_poll
  simp only []
  split
  · simp [reg_read_fifoReads]
  · split_ifs <;>
      simp [reg_read_fifoReads, poll_error_check_fifoReads, poll_timer_check_fifoReads,
        poll_command_check_fifoReads]

theorem wait_idle_loop_fifoReads (K : Consts) (T : Transport σ) :
    ∀ (fuel : Nat) (d d' : Dev σ) (b : Bool),
      wait_idle_loop K T fuel d = some (d', b) → fifoReads d'.trace = fifoReads d.trace := by
  intro fuel
  induction fuel with
  | zero => intro d d' b h; simp [wait_idle_loop] at h
  | succ fuel ih =>
    intro d d' b h
    unfold wait_idle_loop at h
    simp only [] at h
    split at h
    · simp only [Option.some.injEq, Prod.mk.injEq] at h
      obtain ⟨rfl, -⟩ := h
      exact wait_idle_poll_fifoReads K T d
    · rw [ih _ _ _ h]
      exact wait_idle_poll_fifoReads K T d

theorem wait_idle_timer_fifoReads (K : Consts) (T : Transport σ) (fuel : Nat) (d d' : Dev σ)
    (b : Bool) (h : wait_idle_timer K T fuel d = some (d', b)) :
    fifoReads d'.trace = fifoReads d.trace := by
  unfold wait_idle_timer at h
  simp only [] at h
  split_ifs at h
  all_goals first
    | (simp only [Option.some.injEq, Prod.mk.injEq] at h
       obtain ⟨rfl, -⟩ := h
       simp [reg_write_fifoReads, reg_read_fifoReads])
    | (rw [wait_idle_loop_fifoReads K T _ _ _ _ h]
       simp [reg_write_fifoReads, reg_read_fifoReads])

theorem transceive_rx_len_le (K : Consts) (T : Transport σ) (d : Dev σ) (rx_buf : List Nat)
    (c : Nat) : (transceive_rx K T d rx_buf c).rx_len ≤ c := by
  unfold transceive_rx
  simp only []
  split
  · exact le_rfl
  · split_ifs <;> first
      | (simp only []; omega)
      | (split <;> (simp only []; omega))

/-! ## Traces of the read wrappers -/

theorem rx_store_length (buf data : List Nat) (len : Nat) (h : len ≤ buf.length) :
    (rx_store buf data len).length = buf.length := by
  simp only [rx_store, List.length_append, List.length_take, List.length_drop]
  omega

theorem rx_store_drop (buf data : List Nat) (len : Nat) :
    (rx_store buf data len).drop len = buf.drop len := by
  have hle : (data.take len).length ≤ len := by
    simp only [List.length_take]; omega
  unfold rx_store
  rw [List.drop_append_eq_append_drop, List.drop_eq_nil_of_le hle, List.nil_append,
    List.drop_drop]
  congr 1
  omega

theorem rx_store_take (buf data : List Nat) (len : Nat) (h : data.length = len) :
    (rx_store buf data len).take len = data := by
  unfold rx_store
  have h1 : data.take len = data := List.take_of_length_le (by omega)
  rw [h1, List.take_append_of_le_length (by omega), h1]

/-! ## The prescaler search -/

theorem clk_le (i : Nat) : clk i ≤ 13560000 := by
  unfold clk
  exact Nat.div_le_self _ _

theorem clk_eq (i : Nat) : clk i = 13560000 / 2 ^ i := by
  unfold clk
  rw [Nat.shiftLeft_eq, one_mul]

/-- Without overflow the divisor is `clk * timeout / 1000000 + 1`. -/
theorem tmp_div_eq {timeout : Nat} (h : timeout < 2 ^ 32) (i : Nat) :
    tmp_div timeout i = clk i * timeout / 1000000 + 1 := by
  have hc := clk_le i
  have hprod : clk i * timeout < 2 ^ 64 := by
    calc clk i * timeout ≤ 13560000 * timeout := Nat.mul_le_mul_right _ hc
      _ < 2 ^ 64 := by omega
  unfold tmp_div
  rw [Nat.mod_eq_of_lt hprod]
  apply Nat.mod_eq_of_lt
  have : clk i * timeout / 1000000 ≤ clk i * timeout := Nat.div_le_self _ _
  omega

theorem res_le (timeout i : Nat) : res timeout i ≤ 1000000 := by
  unfold res
  exact Nat.div_le_self _ _

/-- Without overflow the overshoot is the integer difference. -/
theorem diff_eq {timeout : Nat} (h : timeout < 2 ^ 32) (i : Nat) :
    diff timeout i = (res timeout i : Int) - (timeout : Int) := by
  have hr := res_le timeout i
  unfold diff to_int64
  have ht : timeout % 2 ^ 64 = timeout := Nat.mod_eq_of_lt (by omega)
  rw [ht]
  by_cases hle : timeout ≤ res timeout i
  · have h1 : (res timeout i + 2 ^ 64 - timeout) % 2 ^ 64 = res timeout i - timeout := by
      have : res timeout i + 2 ^ 64 - timeout = (res timeout i - timeout) + 2 ^ 64 := by omega
      rw [this, Nat.add_mod_right]
      apply Nat.mod_eq_of_lt
      omega
    rw [Nat.mod_mod, h1]
    have h2 : res timeout i - timeout < 2 ^ 63 := by omega
    rw [if_pos h2]
    omega
  · have h1 : (res timeout i + 2 ^ 64 - timeout) % 2 ^ 64 = res timeout i + 2 ^ 64 - timeout := by
      apply Nat.mod_eq_of_lt
      omega
    rw [Nat.mod_mod, h1]
    have h2 : ¬ (res timeout i + 2 ^ 64 - timeout < 2 ^ 63) := by omega
    rw [if_neg h2]
    omega

theorem diff_lt_LLONG_MAX {timeout : Nat} (h : timeout < 2 ^ 32) (i : Nat) :
    diff timeout i < LLONG_MAX := by
  rw [diff_eq h]
  have hr := res_le timeout i
  unfold LLONG_MAX
  omega

/-- An invariant of the search loop: after any list of prescalers either none of
them was a candidate and the locals are untouched, or the locals describe a
candidate of least overshoot. -/
theorem best_prescaler_fold_inv {timeout : Nat} (h : timeout < 2 ^ 32) (l : List Nat) :
    let b := l.foldl (best_prescaler_step timeout)
      { best_prescaler := 0, best_divisor := none, smallest_diff := LLONG_MAX }
    (b = { best_prescaler := 0, best_divisor := none, smallest_diff := LLONG_MAX } ∧
      ∀ i ∈ l, ¬ candidate timeout i) ∨
    (∃ p ∈ l, candidate timeout p ∧
      b = { best_prescaler := p, best_divisor := some (tmp_div timeout p % 256),
            smallest_diff := diff timeout p } ∧
      ∀ i ∈ l, candidate timeout i → diff timeout p ≤ diff timeout i) := by
  induction l using List.reverseRecOn with
  | nil => left; simp
  | append_singleton l a ih =>
    simp only [List.foldl_append, List.foldl_cons, List.foldl_nil]
    simp only at ih
    by_cases hc : candidate timeout a
    · have hc' := hc
      unfold candidate at hc'
      obtain ⟨hc1, hc2⟩ := hc'
      rcases ih with ⟨hb, hnone⟩ | ⟨p, hp, hcp, hb, hmin⟩
      · right
        refine ⟨a, by simp, hc, ?_, ?_⟩
        · rw [hb]
          simp only [best_prescaler_step, if_neg hc1, if_neg hc2]
          rw [if_pos (diff_lt_LLONG_MAX h a)]
        · intro i hi hci
          rcases List.mem_append.1 hi with hi | hi
          · exact absurd hci (hnone i hi)
          · simp only [List.mem_singleton] at hi; subst hi; exact le_rfl
      · right
        by_cases hlt : diff timeout a < diff timeout p
        · refine ⟨a, by simp, hc, ?_, ?_⟩
          · rw [hb]
            simp only [best_prescaler_step, if_neg hc1, if_neg hc2]
            rw [if_pos hlt]
          · intro i hi hci
            rcases List.mem_append.1 hi with hi | hi
            · exact le_trans (le_of_lt hlt) (hmin i hi hci)
            · simp only [List.mem_singleton] at hi; subst hi; exact le_rfl
        · refine ⟨p, List.mem_append_left _ hp, hcp, ?_, ?_⟩
          · rw [hb]
            simp only [best_prescaler_step, if_neg hc1, if_neg hc2]
            rw [if_neg hlt]
          · intro i hi hci
            rcases List.mem_append.1 hi with hi | hi
            · exact hmin i hi hci
            · simp only [List.mem_singleton] at hi; subst hi; exact not_lt.1 hlt
    · have hstep : ∀ b, best_prescaler_step timeout b a = b := by
        intro b
        unfold candidate at hc
        unfold best_prescaler_step
        by_cases h1 : tmp_div timeout a > 0xff ∨ tmp_div timeout a > clk a
        · rw [if_pos h1]
        · rw [if_neg h1]
          have h2 : diff timeout a < 0 := by
            by_contra h2
            exact hc ⟨h1, h2⟩
          rw [if_pos h2]
      rw [hstep]
      rcases ih with ⟨hb, hnone⟩ | ⟨p, hp, hcp, hb, hmin⟩
      · left
        refine ⟨hb, ?_⟩
        intro i hi
        rcases List.mem_append.1 hi with hi | hi
        · exact hnone i hi
        · simp only [List.mem_singleton] at hi; subst hi; exact hc
      · right
        refine ⟨p, List.mem_append_left _ hp, hcp, hb, ?_⟩
        intro i hi hci
        rcases List.mem_append.1 hi with hi | hi
        · exact hmin i hi hci
        · simp only [List.mem_singleton] at hi; subst hi; exact absurd hci hc

/-- Prescaler 20 (a 12 Hz clock) passes the checks for every timeout below one
second. -/
theorem candidate_20 {timeout : Nat} (h : timeout < 1000000) : candidate timeout 20 := by
  have h32 : timeout < 2 ^ 32 := by omega
  have hclk : clk 20 = 12 := by decide
  have htd : tmp_div timeout 20 = 12 * timeout / 1000000 + 1 := by
    rw [tmp_div_eq h32, hclk]
  unfold candidate
  rw [diff_eq h32]
  unfold res
  rw [htd, hclk]
  have hd : 12 * timeout / 1000000 + 1 ≤ 12 := by omega
  refine ⟨by omega, ?_⟩
  generalize hdv : 12 * timeout / 1000000 + 1 = d at hd
  have hd1 : 1 ≤ d := by omega
  have : timeout ≤ 1000000 / (12 / d) := by
    interval_cases d <;> simp only [Nat.reduceDiv] <;> omega
  omega

/-! ## Masked update of a byte -/

theorem mask_update_keeps (v m b : Nat) :
    ((v &&& bnot8 m) ||| (b &&& m)) &&& bnot8 m = v &&& bnot8 m := by
  apply Nat.eq_of_testBit_eq
  intro i
  simp only [Nat.testBit_and, Nat.testBit_or, testBit_bnot8]
  cases v.testBit i <;> cases m.testBit i <;> cases b.testBit i <;> simp

theorem mask_update_sets {v : Nat} (hv : v < 256) (m b : Nat) :
    ((v &&& bnot8 m) ||| (b &&& m)) &&& m = b &&& m := by
  apply Nat.eq_of_testBit_eq
  intro i
  simp only [Nat.testBit_and, Nat.testBit_or, testBit_bnot8]
  by_cases h8 : i < 8
  · cases v.testBit i <;> cases m.testBit i <;> cases b.testBit i <;> simp [h8]
  · rw [testBit_of_lt_256 hv (by omega)]
    simp

/-! ## Runs of the bit primitives -/

/-- A successful `asic_clear_bits`: the transport answered the read with a
byte `v`, and the device is either as the read left it or as one accepted
write to the same register left it. -/
theorem asic_clear_bits_run (T : Transport σ) (d : Dev σ) (reg bits : Nat)
    (h : (asic_clear_bits T d reg bits).2 = true) :
    ∃ v, (T.reg_read d.st reg).2.map (fun v => v % 256) = some v ∧
      ((asic_clear_bits T d reg bits).1 =
          ⟨(T.reg_read d.st reg).1, d.trace ++ [Event.regRead reg (some v)]⟩ ∨
        ∃ w, (T.reg_write (T.reg_read d.st reg).1 reg w).2 = true ∧
          (asic_clear_bits T d reg bits).1 =
            ⟨(T.reg_write (T.reg_read d.st reg).1 reg w).1,
              d.trace ++ [Event.regRead reg (some v), Event.regWrite reg w true]⟩) := by
  unfold asic_clear_bits at h ⊢
  simp only [] at h ⊢
  cases hr : (reg_read T d reg).2 with
  | none => simp [hr] at h
  | some v =>
    have hr' : (T.reg_read d.st reg).2.map (fun v => v % 256) = some v := hr
    refine ⟨v, hr', ?_⟩
    simp only [hr] at h ⊢
    split_ifs at h ⊢ with h0
    · left
      simp [reg_read, hr']
    · right
      have hw : (T.reg_write (T.reg_read d.st reg).1 reg (v &&& bnot8 bits)).2 = true := h
      refine ⟨v &&& bnot8 bits, hw, ?_⟩
      simp [reg_write, reg_read, hr', hw]

/-- A successful `asic_set_bits`: the transport answered the read with a byte
`v`, and the device is either as the read left it or as one accepted write to
the same register left it. -/
theorem asic_set_bits_run (T : Transport σ) (d : Dev σ) (reg bits : Nat)
    (h : (asic_set_bits T d reg bits).2 = true) :
    ∃ v, (T.reg_read d.st reg).2.map (fun v => v % 256) = some v ∧
      ((asic_set_bits T d reg bits).1 =
          ⟨(T.reg_read d.st reg).1, d.trace ++ [Event.regRead reg (some v)]⟩ ∨
        ∃ w, (T.reg_write (T.reg_read d.st reg).1 reg w).2 = true ∧
          (asic_set_bits T d reg bits).1 =
            ⟨(T.reg_write (T.reg_read d.st reg).1 reg w).1,
              d.trace ++ [Event.regRead reg (some v), Event.regWrite reg w true]⟩) := by
  unfold asic_set_bits at h ⊢
  simp only [] at h ⊢
  cases hr : (reg_read T d reg).2 with
  | none => simp [hr] at h
  | some v =>
    have hr' : (T.reg_read d.st reg).2.map (fun v => v % 256) = some v := hr
    refine ⟨v, hr', ?_⟩
    simp only [hr] at h ⊢
    split_ifs at h ⊢ with h0
    · left
      simp [reg_read, hr']
    · right
      have hw : (T.reg_write (T.reg_read d.st reg).1 reg (v ||| bits)).2 = true := h
      refine ⟨v ||| bits, hw, ?_⟩
      simp [reg_write, reg_read, hr', hw]

/-! ## The prescaler search without wrap-around -/

/-- The divisor is `clk * timeout / 1000000 + 1` as long as the 64-bit product
cannot wrap. -/
theorem tmp_div_eq_of_no_wrap {timeout : Nat} (h : 13560000 * timeout < 2 ^ 64) (i : Nat) :
    tmp_div timeout i = clk i * timeout / 1000000 + 1 := by
  have hc := clk_le i
  have hprod : clk i * timeout < 2 ^ 64 :=
    lt_of_le_of_lt (Nat.mul_le_mul_right _ hc) h
  unfold tmp_div
  rw [Nat.mod_eq_of_lt hprod]
  apply Nat.mod_eq_of_lt
  have : clk i * timeout / 1000000 ≤ clk i * timeout := Nat.div_le_self _ _
  omega

/-- The overshoot is the integer difference for every timeout below 2^63. -/
theorem diff_eq_of_lt {timeout : Nat} (h : timeout < 2 ^ 63) (i : Nat) :
    diff timeout i = (res timeout i : Int) - (timeout : Int) := by
  have hr := res_le timeout i
  unfold diff to_int64
  have ht : timeout % 2 ^ 64 = timeout := Nat.mod_eq_of_lt (by omega)
  rw [ht]
  by_cases hle : timeout ≤ res timeout i
  · have h1 : (res timeout i + 2 ^ 64 - timeout) % 2 ^ 64 = res timeout i - timeout := by
      have : res timeout i + 2 ^ 64 - timeout = (res timeout i - timeout) + 2 ^ 64 := by omega
      rw [this, Nat.add_mod_right]
      apply Nat.mod_eq_of_lt
      omega
    rw [Nat.mod_mod, h1]
    have h2 : res timeout i - timeout < 2 ^ 63 := by omega
    rw [if_pos h2]
    omega
  · have h1 : (res timeout i + 2 ^ 64 - timeout) % 2 ^ 64 = res timeout i + 2 ^ 64 - timeout := by
      apply Nat.mod_eq_of_lt
      omega
    rw [Nat.mod_mod, h1]
    have h2 : ¬ (res timeout i + 2 ^ 64 - timeout < 2 ^ 63) := by omega
    rw [if_neg h2]
    omega

/-- A divisor that does not exceed the clock never undershoots the timeout. -/
theorem achieved_ge (c t : Nat) (h : c * t / 1000000 + 1 ≤ c) :
    t ≤ 1000000 / (c / (c * t / 1000000 + 1)) := by
  have hd : 0 < c * t / 1000000 + 1 := Nat.succ_pos _
  have hq : 0 < c / (c * t / 1000000 + 1) := Nat.div_pos h hd
  rw [Nat.le_div_iff_mul_le hq]
  have h1 : c / (c * t / 1000000 + 1) * (c * t / 1000000 + 1) ≤ c := Nat.div_mul_le_self _ _
  have h2 : c * t < (c * t / 1000000 + 1) * 1000000 := by
    have := Nat.lt_succ_self (c * t / 1000000)
    exact (Nat.div_lt_iff_lt_mul (by norm_num)).1 this
  have h3 : t * (c / (c * t / 1000000 + 1)) * (c * t / 1000000 + 1) <
      1000000 * (c * t / 1000000 + 1) := by
    calc t * (c / (c * t / 1000000 + 1)) * (c * t / 1000000 + 1)
        = t * (c / (c * t / 1000000 + 1) * (c * t / 1000000 + 1)) := by ring
      _ ≤ t * c := Nat.mul_le_mul_left _ h1
      _ = c * t := by ring
      _ < (c * t / 1000000 + 1) * 1000000 := h2
      _ = 1000000 * (c * t / 1000000 + 1) := by ring
  exact le_of_lt (Nat.lt_of_mul_lt_mul_right h3)

/-- From one second on the divisor exceeds the clock for every prescaler. -/
theorem not_candidate_of_ge {timeout : Nat} (h : 13560000 * timeout < 2 ^ 64)
    (hge : 1000000 ≤ timeout) (i : Nat) : ¬ candidate timeout i := by
  intro hc
  unfold candidate at hc
  rw [tmp_div_eq_of_no_wrap h] at hc
  have h1 : clk i ≤ clk i * timeout / 1000000 := by
    rw [Nat.le_div_iff_mul_le (by norm_num)]
    exact Nat.mul_le_mul_left _ hge
  omega

/-- The search leaves its locals untouched when no prescaler is a candidate. -/
theorem best_prescaler_fold_none (timeout : Nat) (b : Best) (l : List Nat)
    (h : ∀ i ∈ l, ¬ candidate timeout i) :
    l.foldl (best_prescaler_step timeout) b = b := by
  induction l with
  | nil => rfl
  | cons a rest ih =>
    have ha : best_prescaler_step timeout b a = b := by
      have hc := h a (by simp)
      unfold candidate at hc
      unfold best_prescaler_step
      by_cases h1 : tmp_div timeout a > 0xff ∨ tmp_div timeout a > clk a
      · rw [if_pos h1]
      · rw [if_neg h1]
        have h2 : diff timeout a < 0 := by
          by_contra h2
          exact hc ⟨h1, h2⟩
        rw [if_pos h2]
    rw [List.foldl_cons, ha]
    exact ih (fun i hi => h i (by simp [hi]))

/-! ## Register tables on the transport -/

theorem writes_done_cons (T : Transport σ) (s : σ) (e : reg_file) (es : List reg_file) :
    writes_done T s (e :: es) = writes_done T (T.reg_write s e.reg e.val).1 es := rfl

theorem write_accepted_zero (T : Transport σ) (s : σ) (e : reg_file) (es : List reg_file) :
    write_accepted T s (e :: es) 0 = (T.reg_write s e.reg e.val).2 := by
  simp [write_accepted, writes_done]

theorem write_accepted_succ (T : Transport σ) (s : σ) (e : reg_file) (es : List reg_file)
    (n : Nat) :
    write_accepted T s (e :: es) (n + 1) =
      write_accepted T (T.reg_write s e.reg e.val).1 es n := by
  simp [write_accepted, writes_done]

/-! ## C1 -/

/-- C1: receive drain of `_clrc632_transceive`. Whatever the run, the final
`*rx_len` is at most the initial one. When the transmit phase and the completion
wait succeed and the FIFO_LENGTH read that follows returns `a > 0`, the call
returns after exactly one FIFO read, made on the transport for `min c a` bytes,
and ends with `*rx_len = min c a`. If that read fails the call fails. If it
delivers `data` the call succeeds and `rx_buf` is the caller's buffer with
`data` stored at its start: every byte from position `min c a` on is as it was
on entry, the length of the buffer is unchanged when it has room for `c`
bytes, and the first `min c a` bytes are exactly `data` when the transport
delivered the `min c a` bytes it was asked for. -/
theorem transceive_rx_drain (K : Consts) (T : Transport σ) (fuel junk : Nat) (cci : Dev σ)
    (tx_buf : Int → Nat) (tx_len : Nat) (rx_buf : List Nat) (c timer toggle : Nat) :
    (∀ x, _clrc632_transceive K T fuel junk cci tx_buf tx_len rx_buf c timer toggle = some x →
      x.rx_len ≤ c) ∧
    (∀ (d1 d2 d3 : Dev σ) (a : Nat),
      transceive_tx K T fuel junk cci tx_buf tx_len timer = some (d1, true) →
      wait_idle_timer K T fuel d1 = some (d2, true) →
      reg_read T d2 K.RC632_REG_FIFO_LENGTH = (d3, some a) →
      0 < a →
      ∃ x, _clrc632_transceive K T fuel junk cci tx_buf tx_len rx_buf c timer toggle = some x ∧
        x.rx_len = min c a ∧
        x.cci.st = (T.fifo_read d3.st (min c a)).1 ∧
        x.cci.trace =
          d3.trace ++ [Event.fifoRead (min c a) (T.fifo_read d3.st (min c a)).2] ∧
        fifoReads x.cci.trace =
          fifoReads cci.trace ++ [Event.fifoRead (min c a) (T.fifo_read d3.st (min c a)).2] ∧
        ((T.fifo_read d3.st (min c a)).2 = none → x.ret = false) ∧
        (∀ data, (T.fifo_read d3.st (min c a)).2 = some data →
          x.ret = true ∧
          x.rx_buf = data.take (min c a) ++ rx_buf.drop (data.take (min c a)).length ∧
          x.rx_buf.drop (min c a) = rx_buf.drop (min c a) ∧
          (c ≤ rx_buf.length → x.rx_buf.length = rx_buf.length) ∧
          (data.length = min c a → x.rx_buf.take (min c a) = data))) := by
  constructor
  · intro x hx
    unfold _clrc632_transceive at hx
    split at hx
    · simp at hx
    · simp only [Option.some.injEq] at hx; subst hx; exact le_rfl
    · split at hx
      · simp at hx
      · simp only [Option.some.injEq] at hx; subst hx; exact le_rfl
      · simp only [Option.some.injEq] at hx; subst hx
        exact transceive_rx_len_le K T _ rx_buf c
  · intro d1 d2 d3 a htx hwait hlen ha
    have hmin : (if a > c then c else if c > a then a else c) = min c a := by
      split_ifs <;> omega
    have ha0 : a ≠ 0 := by omega
    have hfr : fifoReads d3.trace = fifoReads cci.trace := by
      have h3 : d3 = (reg_read T d2 K.RC632_REG_FIFO_LENGTH).1 := by rw [hlen]
      rw [h3, reg_read_fifoReads, wait_idle_timer_fifoReads K T fuel d1 d2 true hwait,
        transceive_tx_fifoReads K T fuel junk cci tx_buf tx_len timer d1 true htx]
    have hf2 : (fifo_read T d3 (min c a)).2 = (T.fifo_read d3.st (min c a)).2 := rfl
    have hcci : (transceive_rx K T d2 rx_buf c).cci = (fifo_read T d3 (min c a)).1 := by
      simp only [transceive_rx, hlen, hmin, ha0, if_false]
      split <;> rfl
    refine ⟨transceive_rx K T d2 rx_buf c, ?_, ?_, ?_, ?_, ?_, ?_, ?_⟩
    · simp [_clrc632_transceive, htx, hwait]
    · simp only [transceive_rx, hlen, hmin, ha0, if_false]
      split <;> rfl
    · rw [hcci]; rfl
    · rw [hcci]; rfl
    · rw [hcci, ← hfr]
      simp [fifo_read, fifoReads, List.filter_append, isFifoRead]
    · intro hnone
      rw [← hf2] at hnone
      simp only [transceive_rx, hlen, hmin, ha0, if_false]
      simp [hnone]
    · intro data hdata
      rw [← hf2] at hdata
      have hbuf : (transceive_rx K T d2 rx_buf c).rx_buf = rx_store rx_buf data (min c a) := by
        simp only [transceive_rx, hlen, hmin, ha0, if_false]
        simp [hdata]
      refine ⟨?_, ?_, ?_, ?_, ?_⟩
      · simp only [transceive_rx, hlen, hmin, ha0, if_false]
        simp [hdata]
      · rw [hbuf]; rfl
      · rw [hbuf]; exact rx_store_drop _ _ _
      · intro hc
        rw [hbuf]
        exact rx_store_length _ _ _ (le_trans (min_le_left c a) hc)
      · intro hl
        rw [hbuf]
        exact rx_store_take _ _ _ hl

/-- The end-to-end scenario: a 7-byte command, a buffer of three bytes 0xAA with
capacity 2, COMMAND reading 0 and FIFO_LENGTH reading 2 on the first poll. The
call returns those 2 bytes and leaves the third byte of the buffer alone. With
a capacity of 3 against the same 2 available bytes the length is narrowed to 2
and the third byte is kept as well. -/
theorem transceive_rx_drain_witness :
    (∃ x, _clrc632_transceive rc632 (stub reqaTable [0x04, 0x00]) 1 0 ⟨(), []⟩
        (fun _ => 0x26) 7 [0xAA, 0xAA, 0xAA] 2 1000 0 = some x ∧
      x.ret = true ∧ x.rx_len = 2 ∧ x.rx_buf = [0x04, 0x00, 0xAA]) ∧
    (_clrc632_transceive rc632 (stub reqaTable [0x04, 0x00]) 1 0 ⟨(), []⟩
        (fun _ => 0x26) 7 [0xAA, 0xAA, 0xAA] 3 1000 0).map
      (fun x => (x.ret, x.rx_len, x.rx_buf)) = some (true, 2, [0x04, 0x00, 0xAA]) := by
  constructor
  · obtain ⟨x, hx, hlen, -, -, -, -, hdata⟩ :=
      (transceive_rx_drain rc632 (stub reqaTable [0x04, 0x00]) 1 0 ⟨(), []⟩
        (fun _ => 0x26) 7 [0xAA, 0xAA, 0xAA] 2 1000 0).2 _ _ _ 2
          (by rfl) (by rfl) (by rfl) (by decide)
    exact ⟨x, hx, (hdata [0x04, 0x00] (by rfl)).1, hlen, (hdata [0x04, 0x00] (by rfl)).2.1⟩
  · decide

/-! ## C2 -/

/-- C2 fails on the code: a 70-byte buffer, every operation succeeding and the
FIFO fill level read as 0. The second FIFO write is `64 - 0 = 64` bytes long
and starts at offset 64, so it hands the 58 bytes after the end of the buffer
to the FIFO; the bytes written are not the transmit buffer. -/
theorem tx_loop_reads_past_buffer :
    (transceive_tx rc632 (stub (fun _ => 0) []) 2 0 ⟨(), []⟩ (countingBuf 70) 70 1000).map
        (fun r => (r.2, fifoWriteSpans r.1.trace)) = some (true, [(0, 64), (64, 64)]) ∧
    (transceive_tx rc632 (stub (fun _ => 0) []) 2 0 ⟨(), []⟩ (countingBuf 70) 70 1000).map
        (fun r => fifoWritten r.1.trace) =
      some (bytesAt (countingBuf 70) 0 70 ++ List.replicate 58 0xEE) := by
  decide

/-! ## C3 -/

/-- C3 as stated fails: for `t = 100000`, inside the claimed range, no prescaler
passes the checks and `best_prescaler (10 * t)` leaves the divisor unassigned. -/
theorem best_prescaler_no_candidate :
    best_prescaler (10 * 100000) = (0, none) ∧
    ∀ i < 21, ¬ candidate (10 * 100000) i := by
  decide

/-- C3, amended to `t` in [1, 99999]: with `T = 10 * t`, `best_prescaler T`
returns a prescaler `p ≤ 20` and a divisor `d` in [1, 255] with
`d = clk_p * T / 1000000 + 1 ≤ clk_p`, `clk_p = 13560000 / 2 ^ p`, whose achieved
timeout `1000000 / (clk_p / d)` is at least `T`, and no prescaler `i ≤ 20`
that passes the same checks has a smaller overshoot. -/
theorem best_prescaler_optimal (t : Nat) (h1 : 1 ≤ t) (h2 : t ≤ 99999) :
    ∃ p d, best_prescaler (10 * t) = (p, some d) ∧
      p ≤ 20 ∧ 1 ≤ d ∧ d ≤ 255 ∧
      clk p = 13560000 / 2 ^ p ∧
      d = clk p * (10 * t) / 1000000 + 1 ∧ d ≤ clk p ∧
      10 * t ≤ 1000000 / (clk p / d) ∧
      ∀ i, i ≤ 20 →
        clk i * (10 * t) / 1000000 + 1 ≤ 255 →
        clk i * (10 * t) / 1000000 + 1 ≤ clk i →
        10 * t ≤ 1000000 / (clk i / (clk i * (10 * t) / 1000000 + 1)) →
        ((1000000 / (clk p / d) : Nat) : Int) - ((10 * t : Nat) : Int) ≤
          ((1000000 / (clk i / (clk i * (10 * t) / 1000000 + 1)) : Nat) : Int) -
            ((10 * t : Nat) : Int) := by
  have h32 : 10 * t < 2 ^ 32 := by omega
  have h20 : candidate (10 * t) 20 := candidate_20 (by omega)
  have hinv := best_prescaler_fold_inv h32 (List.range 21)
  simp only at hinv
  rcases hinv with ⟨-, hnone⟩ | ⟨p, hp, hcp, hb, hmin⟩
  · exact absurd h20 (hnone 20 (by simp))
  · have hp20 : p ≤ 20 := by
      have := List.mem_range.1 hp
      omega
    have hcp' := hcp
    unfold candidate at hcp'
    rw [diff_eq h32, tmp_div_eq h32] at hcp'
    unfold res at hcp'
    rw [tmp_div_eq h32] at hcp'
    obtain ⟨hrange, hdiff⟩ := hcp'
    have hd255 : clk p * (10 * t) / 1000000 + 1 ≤ 255 := by omega
    refine ⟨p, clk p * (10 * t) / 1000000 + 1, ?_, hp20, by omega, hd255, clk_eq p, rfl,
      by omega, by omega, ?_⟩
    · unfold best_prescaler
      simp only
      rw [hb, tmp_div_eq h32]
      simp only [Prod.mk.injEq, Option.some.injEq, true_and]
      omega
    · intro i hi hi255 hiclk hires
      have hci : candidate (10 * t) i := by
        unfold candidate
        rw [diff_eq h32, tmp_div_eq h32]
        unfold res
        rw [tmp_div_eq h32]
        exact ⟨by omega, by omega⟩
      have := hmin i (List.mem_range.2 (by omega)) hci
      rw [diff_eq h32, diff_eq h32] at this
      unfold res at this
      rw [tmp_div_eq h32, tmp_div_eq h32] at this
      exact this

theorem best_prescaler_optimal_witness :
    ∃ p d, best_prescaler (10 * 1000) = (p, some d) ∧ p ≤ 20 ∧ 1 ≤ d ∧ d ≤ 255 := by
  obtain ⟨p, d, h, hp, hd1, hd2, -⟩ := best_prescaler_optimal 1000 (by decide) (by decide)
  exact ⟨p, d, h, hp, hd1, hd2⟩

/-! ## C4 -/

/-- C4 fails on the code: after a successful `_clrc632_set_speed` to index 1
(212 kbit/s) on a register file set up for 106 kbit/s, CODER_CONTROL still
holds its old value, so its rate field is `RC632_CDRCTRL_RATE_106K` and not
`rate[1].rate`. The fifth step addresses the register numbered
`RC632_CDRCTRL_RATE_MASK` with the mask `RC632_DECCTRL_BPSK`. -/
theorem set_speed_leaves_coder_rate :
    (_clrc632_set_speed rc632 regfile ⟨regsAt106k, []⟩ 1).2 = true ∧
    (_clrc632_set_speed rc632 regfile ⟨regsAt106k, []⟩ 1).1.st
      rc632.RC632_REG_CODER_CONTROL = 0x19 ∧
    (_clrc632_set_speed rc632 regfile ⟨regsAt106k, []⟩ 1).1.st
      rc632.RC632_REG_CODER_CONTROL &&& rc632.RC632_CDRCTRL_RATE_MASK =
        rc632.RC632_CDRCTRL_RATE_106K ∧
    ((rate rc632)[1]?).map (fun e => e.rate) = some rc632.RC632_CDRCTRL_RATE_212K ∧
    rc632.RC632_CDRCTRL_RATE_212K ≠ rc632.RC632_CDRCTRL_RATE_106K ∧
    (_clrc632_set_speed rc632 regfile ⟨regsAt106k, []⟩ 1).1.trace =
      [Event.regRead 0x19 (some 0), Event.regWrite 0x19 0x40 true,
       Event.regRead 0x1a (some 0), Event.regWrite 0x1a 0x01 true,
       Event.regWrite 0x1c 0x50 true, Event.regWrite 0x1d 0x0c true,
       Event.regRead 0x38 (some 0), Event.regWrite 0x38 0x00 true,
       Event.regWrite 0x15 0x07 true] := by
  decide

/-! ## C5 -/

/-- C5: `_clrc632_set_speed` with an index of 4 or more returns failure and hands
back the device exactly as it got it: same transport state, same trace, so no
register read, register write or FIFO access has been made. -/
theorem set_speed_rejects (K : Consts) (T : Transport σ) (cci : Dev σ) (i : Nat)
    (hi : 4 ≤ i) : _clrc632_set_speed K T cci i = (cci, false) := by
  have hnone : (rate K)[i]? = none := by
    apply List.getElem?_eq_none
    simpa [rate] using hi
  simp [_clrc632_set_speed, hnone]

theorem set_speed_rejects_witness :
    4 ≤ 4 ∧ _clrc632_set_speed rc632 regfile ⟨fun _ => 0, []⟩ 4 = (⟨fun _ => 0, []⟩, false) :=
  ⟨le_rfl, set_speed_rejects rc632 regfile ⟨fun _ => 0, []⟩ 4 le_rfl⟩

/-! ## C6 -/

/-- C6: timeout path of `_clrc632_transceive`. When the transmit phase succeeds,
`wait_idle_timer` gets through its INTERRUPT_EN read and write, and the first
poll reads a status with the IRQ bit set, passes the error check, and reads an
interrupt-request byte with TIMER set and RX clear, the call returns failure
and has made no FIFO read. Its last call is the write of
`~RC632_INT_SET & RC632_IRQ_TIMER` to INTERRUPT_RQ, made on the transport in
the state `d6.st` that the INTERRUPT_RQ read left: the device ends in the state
that this write produces, and the trace ends with the write and the answer the
transport gave to it. -/
theorem transceive_timeout (K : Consts) (T : Transport σ) (fuel junk : Nat)
    (cci : Dev σ) (tx_buf : Int → Nat) (tx_len : Nat) (rx_buf : List Nat)
    (c timer toggle : Nat) (d1 d2 d3 d4 d5 d6 : Dev σ) (v stat irq : Nat)
    (htx : transceive_tx K T (fuel + 1) junk cci tx_buf tx_len timer = some (d1, true))
    (hen : reg_read T d1 K.RC632_REG_INTERRUPT_EN = (d2, some v))
    (hwr : reg_write T d2 K.RC632_REG_INTERRUPT_EN
      (K.RC632_IRQ_SET ||| K.RC632_IRQ_TIMER ||| K.RC632_IRQ_IDLE ||| K.RC632_IRQ_RX) =
        (d3, true))
    (hstat : reg_read T d3 K.RC632_REG_PRIMARY_STATUS = (d4, some stat))
    (hbit : stat &&& K.RC632_STAT_IRQ ≠ 0)
    (hnoerr : (stat &&& K.RC632_STAT_ERR = 0 ∧ d5 = d4) ∨
      (stat &&& K.RC632_STAT_ERR ≠ 0 ∧ ∃ err,
        reg_read T d4 K.RC632_REG_ERROR_FLAG = (d5, some err) ∧
        err &&& (K.RC632_ERR_FLAG_COL_ERR ||| K.RC632_ERR_FLAG_PARITY_ERR |||
          K.RC632_ERR_FLAG_FRAMING_ERR) = 0))
    (hirq : reg_read T d5 K.RC632_REG_INTERRUPT_RQ = (d6, some irq))
    (htimer : irq &&& K.RC632_IRQ_TIMER ≠ 0)
    (hrx : irq &&& K.RC632_IRQ_RX = 0) :
    ∃ x, _clrc632_transceive K T (fuel + 1) junk cci tx_buf tx_len rx_buf c timer toggle =
        some x ∧
      x.ret = false ∧
      fifoReads x.cci.trace = fifoReads cci.trace ∧
      x.cci.st = (T.reg_write d6.st K.RC632_REG_INTERRUPT_RQ
        (bnot8 K.RC632_INT_SET &&& K.RC632_IRQ_TIMER)).1 ∧
      x.cci.trace = d6.trace ++
        [Event.regWrite K.RC632_REG_INTERRUPT_RQ
          (bnot8 K.RC632_INT_SET &&& K.RC632_IRQ_TIMER)
          (T.reg_write d6.st K.RC632_REG_INTERRUPT_RQ
            (bnot8 K.RC632_INT_SET &&& K.RC632_IRQ_TIMER)).2] := by
  have herr : poll_error_check K T d4 stat = (d5, false) := by
    rcases hnoerr with ⟨h0, rfl⟩ | ⟨h1, err, hr, he⟩
    · simp [poll_error_check, h0]
    · simp [poll_error_check, h1, hr, he]
  have htmo : poll_timer_check K T d5 stat =
      ((clear_irqs K T d6 K.RC632_IRQ_TIMER).1, true) := by
    simp [poll_timer_check, hbit, hirq, htimer, hrx]
  have hpoll : wait_idle_poll K T d3 =
      ((clear_irqs K T d6 K.RC632_IRQ_TIMER).1, some false) := by
    simp [wait_idle_poll, hstat, herr, htmo]
  have hwait : wait_idle_timer K T (fuel + 1) d1 =
      some ((clear_irqs K T d6 K.RC632_IRQ_TIMER).1, false) := by
    simp [wait_idle_timer, hen, hwr, wait_idle_loop, hpoll]
  refine ⟨⟨(clear_irqs K T d6 K.RC632_IRQ_TIMER).1, false, c, rx_buf⟩, ?_, rfl, ?_, rfl, rfl⟩
  · simp [_clrc632_transceive, htx, hwait]
  · simp only []
    rw [wait_idle_timer_fifoReads K T (fuel + 1) d1 _ false hwait,
      transceive_tx_fifoReads K T (fuel + 1) junk cci tx_buf tx_len timer d1 true htx]

/-- The timeout scenario on a transport that keeps the writes it receives: the
call fails, and the last write the device has received, which is also the last
entry of the trace, is the write of 0x20 to INTERRUPT_RQ (0x07). -/
theorem transceive_timeout_witness :
    ∃ x, _clrc632_transceive rc632 (recorder timeoutTable []) 1 0 ⟨[], []⟩
        (fun _ => 0x26) 7 [] 2 1000 0 = some x ∧ x.ret = false ∧
      x.cci.st.getLast? = some (0x07, 0x20) ∧
      x.cci.trace.getLast? = some (Event.regWrite 0x07 0x20 true) := by
  obtain ⟨x, hx, hret, -, hst, htr⟩ :=
    transceive_timeout rc632 (recorder timeoutTable []) 0 0 ⟨[], []⟩
      (fun _ => 0x26) 7 [] 2 1000 0 _ _ _ _ _ _ 0 0x08 0x20 (by rfl) (by rfl) (by rfl)
      (by rfl) (by decide) (Or.inl ⟨by decide, rfl⟩) (by rfl) (by decide) (by decide)
  refine ⟨x, hx, hret, ?_, ?_⟩
  · rw [hst]; rfl
  · rw [htr]; rfl

/-! ## C7 -/

/-- C7: when the transmit phase and the completion wait succeed and the
FIFO_LENGTH read that follows returns 0, `_clrc632_transceive` returns failure,
whatever the requested capacity, and has made no FIFO read. -/
theorem transceive_empty_response (K : Consts) (T : Transport σ) (fuel junk : Nat)
    (cci : Dev σ) (tx_buf : Int → Nat) (tx_len : Nat) (rx_buf : List Nat)
    (c timer toggle : Nat) (d1 d2 d3 : Dev σ)
    (htx : transceive_tx K T fuel junk cci tx_buf tx_len timer = some (d1, true))
    (hwait : wait_idle_timer K T fuel d1 = some (d2, true))
    (hlen : reg_read T d2 K.RC632_REG_FIFO_LENGTH = (d3, some 0)) :
    ∃ x, _clrc632_transceive K T fuel junk cci tx_buf tx_len rx_buf c timer toggle = some x ∧
      x.ret = false ∧ x.cci = d3 ∧ fifoReads x.cci.trace = fifoReads cci.trace := by
  have hfr : fifoReads d3.trace = fifoReads cci.trace := by
    have h3 : d3 = (reg_read T d2 K.RC632_REG_FIFO_LENGTH).1 := by rw [hlen]
    rw [h3, reg_read_fifoReads, wait_idle_timer_fifoReads K T fuel d1 d2 true hwait,
      transceive_tx_fifoReads K T fuel junk cci tx_buf tx_len timer d1 true htx]
  refine ⟨transceive_rx K T d2 rx_buf c, ?_, ?_, ?_, ?_⟩
  · simp [_clrc632_transceive, htx, hwait]
  · simp [transceive_rx, hlen]
  · simp [transceive_rx, hlen]
  · have : (transceive_rx K T d2 rx_buf c).cci = d3 := by simp [transceive_rx, hlen]
    rw [this, hfr]

theorem transceive_empty_response_witness :
    ∃ x, _clrc632_transceive rc632 (stub (fun _ => 0) []) 1 0 ⟨(), []⟩
        (fun _ => 0x26) 7 [] 2 1000 0 = some x ∧ x.ret = false := by
  obtain ⟨x, hx, hret, -, -⟩ :=
    transceive_empty_response rc632 (stub (fun _ => 0) []) 1 0 ⟨(), []⟩
      (fun _ => 0x26) 7 [] 2 1000 0 _ _ _ (by rfl) (by rfl) (by rfl)
  exact ⟨x, hx, hret⟩

/-! ## C8 -/

/-- C8 fails on the code: a 70-byte buffer, every operation succeeding and the
FIFO fill level read as 64 (FIFO still full). The loop computes a chunk of
`64 - 64 = 0` bytes and stops: the transmit phase reports success after a
single FIFO write of the first 64 bytes. -/
theorem tx_loop_stops_on_full_fifo :
    (transceive_tx rc632 (stub (fun r => if r = 0x04 then 64 else 0) []) 2 0 ⟨(), []⟩
        (countingBuf 70) 70 1000).map (fun r => (r.2, fifoWriteSpans r.1.trace)) =
      some (true, [(0, 64)]) := by
  decide

/-! ## C9 -/

/-- C10: on a faithful register file, a second `asic_clear_bits` (respectively
`asic_set_bits`) with the same arguments succeeds, makes exactly one register
read and no write, and leaves the register file as the first call left it, with
the register holding `value & ~mask` (respectively `value | mask`). -/
theorem asic_bits_idempotent (regs : Nat → Nat) (tr : List Event) (addr mask : Nat)
    (hv : regs addr < 256) (hm : mask < 256) :
    (let once := asic_clear_bits regfile ⟨regs, tr⟩ addr mask
     let twice := asic_clear_bits regfile once.1 addr mask
     once.2 = true ∧ twice.2 = true ∧
     once.1.st addr = regs addr &&& bnot8 mask ∧
     twice.1.st = once.1.st ∧
     twice.1.trace =
       once.1.trace ++ [Event.regRead addr (some (regs addr &&& bnot8 mask))]) ∧
    (let once := asic_set_bits regfile ⟨regs, tr⟩ addr mask
     let twice := asic_set_bits regfile once.1 addr mask
     once.2 = true ∧ twice.2 = true ∧
     once.1.st addr = regs addr ||| mask ∧
     twice.1.st = once.1.st ∧
     twice.1.trace = once.1.trace ++ [Event.regRead addr (some (regs addr ||| mask))]) := by
  have hmod : regs addr % 256 = regs addr := Nat.mod_eq_of_lt hv
  constructor
  · by_cases h : regs addr &&& mask = 0
    · have h2 := land_bnot8_of_land_eq_zero hv h
      simp [asic_clear_bits, reg_read, reg_write, regfile, hmod, h, h2]
    · have h3 : (regs addr &&& bnot8 mask) % 256 = regs addr &&& bnot8 mask :=
        Nat.mod_eq_of_lt (land_bnot8_lt _ _)
      simp [asic_clear_bits, reg_read, reg_write, regfile, hmod, h, h3, land_bnot8_land]
  · by_cases h : regs addr &&& mask = mask
    · have h2 := lor_of_land_eq h
      simp [asic_set_bits, reg_read, reg_write, regfile, hmod, h, h2]
    · have h3 : (regs addr ||| mask) % 256 = regs addr ||| mask :=
        Nat.mod_eq_of_lt (lor_lt_256 hv hm)
      simp [asic_set_bits, reg_read, reg_write, regfile, hmod, h, h3, lor_land_self]

theorem asic_bits_idempotent_witness :
    (fun _ : Nat => 0x5b) 0x11 < 256 ∧ (0x03 : Nat) < 256 ∧
    (asic_clear_bits regfile
      (asic_clear_bits regfile ⟨fun _ => 0x5b, []⟩ 0x11 0x03).1 0x11 0x03).1.st 0x11 = 0x58 :=
  ⟨by decide, by decide, by
    have h := (asic_bits_idempotent (fun _ => 0x5b) [] 0x11 0x03 (by decide) (by decide)).1
    simp only at h
    rw [h.2.2.2.1, h.2.2.1]
    decide⟩

/-! ## C11 -/

/-- C11: on a faithful register file `asic_set_mask addr mask bits` succeeds and
leaves in the register a value that agrees with the old one outside `mask`
and with `bits` inside `mask`; every other register keeps its value, the only
transport calls are one read of `addr` and at most one write, to `addr`, and
there is no write at all when `(v & mask) == bits`. -/
theorem asic_set_mask_field (regs : Nat → Nat) (tr : List Event) (addr mask bits : Nat)
    (hv : regs addr < 256) :
    (asic_set_mask regfile ⟨regs, tr⟩ addr mask bits).2 = true ∧
    (asic_set_mask regfile ⟨regs, tr⟩ addr mask bits).1.st addr &&& bnot8 mask =
      regs addr &&& bnot8 mask ∧
    (asic_set_mask regfile ⟨regs, tr⟩ addr mask bits).1.st addr &&& mask = bits &&& mask ∧
    (∀ a, a ≠ addr → (asic_set_mask regfile ⟨regs, tr⟩ addr mask bits).1.st a = regs a) ∧
    ((asic_set_mask regfile ⟨regs, tr⟩ addr mask bits).1.trace =
        tr ++ [Event.regRead addr (some (regs addr))] ∨
      ∃ val, (asic_set_mask regfile ⟨regs, tr⟩ addr mask bits).1.trace =
        tr ++ [Event.regRead addr (some (regs addr)), Event.regWrite addr val true]) ∧
    (regs addr &&& mask = bits →
      asic_set_mask regfile ⟨regs, tr⟩ addr mask bits =
        (⟨regs, tr ++ [Event.regRead addr (some (regs addr))]⟩, true)) := by
  have hmod : regs addr % 256 = regs addr := Nat.mod_eq_of_lt hv
  by_cases h : regs addr &&& mask = bits
  · have hb : bits &&& mask = bits := by
      rw [← h, Nat.land_assoc, Nat.and_self]
    simp [asic_set_mask, reg_read, regfile, hmod, h, hb]
  · have h1 := mask_update_keeps (regs addr) mask bits
    have h2 := mask_update_sets hv mask bits
    refine ⟨?_, ?_, ?_, ?_, ?_, ?_⟩
    · simp [asic_set_mask, reg_read, reg_write, regfile, hmod, h]
    · simp [asic_set_mask, reg_read, reg_write, regfile, hmod, h, h1]
    · simp [asic_set_mask, reg_read, reg_write, regfile, hmod, h, h2]
    · intro a ha
      simp [asic_set_mask, reg_read, reg_write, regfile, hmod, h, Function.update_noteq ha]
    · right
      exact ⟨(regs addr &&& bnot8 mask) ||| (bits &&& mask), by
        simp [asic_set_mask, reg_read, reg_write, regfile, hmod, h]⟩
    · intro h'
      exact absurd h' h

theorem asic_set_mask_field_witness :
    (asic_set_mask regfile ⟨fun _ => 0x73, []⟩ 0x19 0xe0 0x40).2 = true ∧
    (asic_set_mask regfile ⟨fun _ => 0x73, []⟩ 0x19 0xe0 0x40).1.st 0x19 &&& 0xe0 = 0x40 ∧
    (asic_set_mask regfile ⟨fun _ => 0x73, []⟩ 0x19 0xe0 0x40).1.st 0x19 = 0x53 := by
  have h := asic_set_mask_field (fun _ => 0x73) [] 0x19 0xe0 0x40 (by decide)
  exact ⟨h.1, h.2.2.1, by decide⟩

/-! ## C12 -/

/-- C12: `reg_write_batch` makes the writes of the table on the transport in
table order and stops at the first one that the transport refuses. Whether
write `n` is accepted (`write_accepted`) is the answer of the transport to that
write in the state that the writes before it have produced (`writes_done`).
When every write is accepted the call returns success, the transport is in the
state after all the writes and the trace has grown by all of them. When write
`j` is the first one refused the call returns failure, the transport is in the
state after the writes 0 .. `j` and the trace has grown by exactly these, so
no later entry is written. The result is success exactly when no write is
refused. For every transport `_clrc632_14443a_init` is `reg_write_batch` on the
FIFO flush to CONTROL followed by the 17 entries of `rf_14443a_init`. -/
theorem reg_write_batch_order (K : Consts) (T : Transport σ) :
    (∀ (cci : Dev σ) (r : List reg_file),
      (∀ n, n < r.length → write_accepted T cci.st r n = true) →
      reg_write_batch T cci r =
        (⟨writes_done T cci.st r,
          cci.trace ++ r.map (fun e => Event.regWrite e.reg e.val true)⟩, true)) ∧
    (∀ (cci : Dev σ) (r : List reg_file) (j : Nat) (hj : j < r.length),
      (∀ n, n < j → write_accepted T cci.st r n = true) →
      write_accepted T cci.st r j = false →
      reg_write_batch T cci r =
        (⟨writes_done T cci.st (r.take (j + 1)),
          cci.trace ++ (r.take j).map (fun e => Event.regWrite e.reg e.val true) ++
            [Event.regWrite r[j].reg r[j].val false]⟩, false)) ∧
    (∀ (cci : Dev σ) (r : List reg_file),
      (reg_write_batch T cci r).2 = true ↔
        ∀ n, n < r.length → write_accepted T cci.st r n = true) ∧
    (rf_14443a_init K).length = 17 ∧
    (∀ cci : Dev σ, _clrc632_14443a_init K T cci =
      reg_write_batch T cci
        ({ reg := K.RC632_REG_CONTROL, val := K.RC632_CONTROL_FIFO_FLUSH } ::
          rf_14443a_init K)) := by
  -- one step of the loop, when the transport accepts and when it refuses
  have hok : ∀ (cci : Dev σ) (e : reg_file) (es : List reg_file),
      (T.reg_write cci.st e.reg e.val).2 = true →
      reg_write_batch T cci (e :: es) =
        reg_write_batch T ⟨(T.reg_write cci.st e.reg e.val).1,
          cci.trace ++ [Event.regWrite e.reg e.val true]⟩ es := by
    intro cci e es h
    have hw : (reg_write T cci e.reg e.val).2 = true := h
    have hd : (reg_write T cci e.reg e.val).1 = ⟨(T.reg_write cci.st e.reg e.val).1,
        cci.trace ++ [Event.regWrite e.reg e.val true]⟩ := by
      simp [reg_write, h]
    simp only [reg_write_batch, hw, Bool.true_eq_false, if_false, hd]
  have hfail : ∀ (cci : Dev σ) (e : reg_file) (es : List reg_file),
      (T.reg_write cci.st e.reg e.val).2 = false →
      reg_write_batch T cci (e :: es) =
        (⟨(T.reg_write cci.st e.reg e.val).1,
          cci.trace ++ [Event.regWrite e.reg e.val false]⟩, false) := by
    intro cci e es h
    have hw : (reg_write T cci e.reg e.val).2 = false := h
    have hd : (reg_write T cci e.reg e.val).1 = ⟨(T.reg_write cci.st e.reg e.val).1,
        cci.trace ++ [Event.regWrite e.reg e.val false]⟩ := by
      simp [reg_write, h]
    simp only [reg_write_batch, hw, if_true, hd]
  refine ⟨?_, ?_, ?_, by simp [rf_14443a_init], ?_⟩
  · intro cci r
    induction r generalizing cci with
    | nil => intro _; simp [reg_write_batch, writes_done]
    | cons e rest ih =>
      intro h
      have h0 : (T.reg_write cci.st e.reg e.val).2 = true := by
        have := h 0 (by simp)
        rwa [write_accepted_zero] at this
      rw [hok cci e rest h0, ih]
      · simp [writes_done_cons]
      · intro n hn
        have := h (n + 1) (by simpa using hn)
        rwa [write_accepted_succ] at this
  · intro cci r
    induction r generalizing cci with
    | nil => intro j hj; simp at hj
    | cons e rest ih =>
      intro j hj hbefore hrefused
      cases j with
      | zero =>
        rw [write_accepted_zero] at hrefused
        rw [hfail cci e rest hrefused]
        simp [writes_done]
      | succ j =>
        have h0 : (T.reg_write cci.st e.reg e.val).2 = true := by
          have := hbefore 0 (by omega)
          rwa [write_accepted_zero] at this
        have hj' : j < rest.length := by simpa using hj
        rw [write_accepted_succ] at hrefused
        rw [hok cci e rest h0, ih _ j hj' _ hrefused]
        · simp [writes_done_cons]
        · intro n hn
          have := hbefore (n + 1) (by omega)
          rwa [write_accepted_succ] at this
  · intro cci r
    induction r generalizing cci with
    | nil => simp [reg_write_batch]
    | cons e rest ih =>
      by_cases h0 : (T.reg_write cci.st e.reg e.val).2 = true
      · rw [hok cci e rest h0, ih]
        constructor
        · intro h n hn
          cases n with
          | zero => rw [write_accepted_zero]; exact h0
          | succ n =>
            rw [write_accepted_succ]
            exact h n (by simpa using hn)
        · intro h n hn
          have := h (n + 1) (by simpa using hn)
          rwa [write_accepted_succ] at this
      · have h0' : (T.reg_write cci.st e.reg e.val).2 = false := by simpa using h0
        rw [hfail cci e rest h0']
        constructor
        · intro h; simp at h
        · intro h
          have := h 0 (by simp)
          rw [write_accepted_zero, h0'] at this
          simp at this
  · intro cci
    simp only [_clrc632_14443a_init, flush_fifo, reg_write_batch]

/-- The table of `_clrc632_14443a_init` on a register file that is all zero.
With every write accepted the call succeeds after 18 writes, the first of them
the FIFO flush, and the registers hold the table. When the transport refuses
the write to MOD_WIDTH (0x15), entry 5 of the 18, the call fails, its last
call is that write, CODER_CONTROL (0x14) before it has been written and
MOD_WIDTH_SOF (0x16) after it has not; the trace is the six writes made. -/
theorem reg_write_batch_order_witness :
    (_clrc632_14443a_init rc632 regfile ⟨fun _ => 0, []⟩).2 = true ∧
    (_clrc632_14443a_init rc632 regfile ⟨fun _ => 0, []⟩).1.trace.length = 18 ∧
    (_clrc632_14443a_init rc632 regfile ⟨fun _ => 0, []⟩).1.trace.head? =
      some (Event.regWrite 0x09 0x01 true) ∧
    (_clrc632_14443a_init rc632 regfile ⟨fun _ => 0, []⟩).1.st 0x11 = 0x5b ∧
    (_clrc632_14443a_init rc632 regfile ⟨fun _ => 0, []⟩).1.st 0x24 = 0x63 ∧
    (_clrc632_14443a_init rc632 (regfileExcept 0x15) ⟨fun _ => 0, []⟩).2 = false ∧
    (_clrc632_14443a_init rc632 (regfileExcept 0x15) ⟨fun _ => 0, []⟩).1.trace.length = 6 ∧
    (_clrc632_14443a_init rc632 (regfileExcept 0x15) ⟨fun _ => 0, []⟩).1.trace.getLast? =
      some (Event.regWrite 0x15 0x13 false) ∧
    (_clrc632_14443a_init rc632 (regfileExcept 0x15) ⟨fun _ => 0, []⟩).1.st 0x14 = 0x19 ∧
    (_clrc632_14443a_init rc632 (regfileExcept 0x15) ⟨fun _ => 0, []⟩).1.st 0x16 = 0 ∧
    (_clrc632_14443a_init rc632 (regfileExcept 0x15) ⟨fun _ => 0, []⟩).1.trace =
      [Event.regWrite 0x09 0x01 true, Event.regWrite 0x11 0x5b true,
       Event.regWrite 0x12 0x3f true, Event.regWrite 0x13 0x3f true,
       Event.regWrite 0x14 0x19 true, Event.regWrite 0x15 0x13 false] := by
  have hA := (reg_write_batch_order rc632 regfile).1 ⟨fun _ => 0, []⟩
    ({ reg := rc632.RC632_REG_CONTROL, val := rc632.RC632_CONTROL_FIFO_FLUSH } ::
      rf_14443a_init rc632)
    (by intro n _; unfold write_accepted; split <;> rfl)
  have hB := (reg_write_batch_order rc632 (regfileExcept 0x15)).2.1 ⟨fun _ => 0, []⟩
    ({ reg := rc632.RC632_REG_CONTROL, val := rc632.RC632_CONTROL_FIFO_FLUSH } ::
      rf_14443a_init rc632) 5 (by decide) (by decide) (by decide)
  rw [← (reg_write_batch_order rc632 regfile).2.2.2.2 ⟨fun _ => 0, []⟩] at hA
  rw [← (reg_write_batch_order rc632 (regfileExcept 0x15)).2.2.2.2 ⟨fun _ => 0, []⟩] at hB
  refine ⟨?_, ?_, ?_, ?_, ?_, ?_, ?_, ?_, ?_, ?_, by decide⟩
  all_goals first
    | (rw [hA] <;> decide)
    | (rw [hB] <;> decide)

/-! ## C13 -/

/-- C13 fails on the code: `_clrc632_rf_power` with `on = 1` on a register file
whose TX_CONTROL holds 0x5b leaves 0x58, the two RF-enable bits cleared, and
with `on = 0` on 0x58 it leaves 0x5b, the two bits set. The two branches are
the wrong way round. -/
theorem rf_power_inverted :
    (_clrc632_rf_power rc632 regfile ⟨regsAll 0x5b, []⟩ 1).2 = true ∧
    (_clrc632_rf_power rc632 regfile ⟨regsAll 0x5b, []⟩ 1).1.st
      rc632.RC632_REG_TX_CONTROL = 0x58 ∧
    (_clrc632_rf_power rc632 regfile ⟨regsAll 0x5b, []⟩ 1).1.trace =
      [Event.regRead 0x11 (some 0x5b), Event.regWrite 0x11 0x58 true] ∧
    (_clrc632_rf_power rc632 regfile ⟨regsAll 0x58, []⟩ 0).2 = true ∧
    (_clrc632_rf_power rc632 regfile ⟨regsAll 0x58, []⟩ 0).1.st
      rc632.RC632_REG_TX_CONTROL = 0x5b ∧
    (_clrc632_rf_power rc632 regfile ⟨regsAll 0x58, []⟩ 0).1.trace =
      [Event.regRead 0x11 (some 0x58), Event.regWrite 0x11 0x5b true] := by
  decide

/-! ## C14 -/

/-- C14 fails on the code: `_clrc632_init` succeeds on a register file with
PAGE0 = 0x80 and TX_CONTROL = 0x04 and leaves PAGE0 at 0x80 (it is only read),
TX_CONTROL at 0x5c with both RF-enable bits clear, and POWERDOWN clear; started
from an all-zero register file it leaves TX_CONTROL at 0x58, so the value
depends on the initial content. -/
theorem init_post_state :
    (_clrc632_init rc632 regfile ⟨regsBeforeInit, []⟩).2 = true ∧
    (_clrc632_init rc632 regfile ⟨regsBeforeInit, []⟩).1.st rc632.RC632_REG_PAGE0 = 0x80 ∧
    (_clrc632_init rc632 regfile ⟨regsBeforeInit, []⟩).1.st rc632.RC632_REG_TX_CONTROL =
      0x5c ∧
    (_clrc632_init rc632 regfile ⟨regsBeforeInit, []⟩).1.st rc632.RC632_REG_TX_CONTROL &&&
      (rc632.RC632_TXCTRL_TX1_RF_EN ||| rc632.RC632_TXCTRL_TX2_RF_EN) = 0 ∧
    (_clrc632_init rc632 regfile ⟨regsBeforeInit, []⟩).1.st rc632.RC632_REG_CONTROL &&&
      rc632.RC632_CONTROL_POWERDOWN = 0 ∧
    (_clrc632_init rc632 regfile ⟨regsBeforeInit, []⟩).1.trace =
      [Event.regRead 0x09 (some 0), Event.regWrite 0x09 0x10 true,
       Event.regRead 0x09 (some 0x10), Event.regWrite 0x09 0 true,
       Event.regRead 0x00 (some 0x80),
       Event.regRead 0x11 (some 0x04), Event.regWrite 0x11 0x5f true,
       Event.regRead 0x11 (some 0x5f),
       Event.regRead 0x11 (some 0x5f), Event.regWrite 0x11 0x5c true] ∧
    (_clrc632_init rc632 regfile ⟨regsAll 0, []⟩).2 = true ∧
    (_clrc632_init rc632 regfile ⟨regsAll 0, []⟩).1.st rc632.RC632_REG_TX_CONTROL = 0x58 := by
  decide

/-! ## C15 -/

/-- C15: when `_clrc632_set_rf_mode` succeeds, the calls it has made on the
transport are, in order: the write of `(rx_align << 4) | tx_last_bits` (as a
byte) to BIT_FRAMING in the state on entry, which the transport accepted; one
read of CONTROL in the state `s1` this write produced, with at most one
accepted write to CONTROL, leaving state `s2`; and the write of `red` to
CHANNEL_REDUNDANCY in state `s2`, which the transport accepted and which
produced the final state. The trace lists exactly these calls. So the first
write goes to BIT_FRAMING, the last call is the only write to
CHANNEL_REDUNDANCY, and its value, which depends on the flags alone, is the OR
of TX_CRC_ENABLE, RX_CRC_ENABLE, PARITY_ENABLE for the flags RF_TX_CRC,
RF_RX_CRC, RF_PARITY_ENABLE that are set, and of PARITY_ODD when
RF_PARITY_EVEN is not set. -/
theorem set_rf_mode_redundancy (K : Consts) (F : RfConsts) (T : Transport σ) (cci : Dev σ)
    (rf : rf_mode) (hok : (_clrc632_set_rf_mode K F T cci rf).2 = true) :
    (∃ (s1 s2 : σ) (mid : List Event),
      (T.reg_write cci.st K.RC632_REG_BIT_FRAMING
        (((rf.rx_align <<< 4) ||| rf.tx_last_bits) % 256)).2 = true ∧
      s1 = (T.reg_write cci.st K.RC632_REG_BIT_FRAMING
        (((rf.rx_align <<< 4) ||| rf.tx_last_bits) % 256)).1 ∧
      (∃ v, (T.reg_read s1 K.RC632_REG_CONTROL).2.map (fun v => v % 256) = some v ∧
        ((mid = [Event.regRead K.RC632_REG_CONTROL (some v)] ∧
            s2 = (T.reg_read s1 K.RC632_REG_CONTROL).1) ∨
          ∃ w, mid = [Event.regRead K.RC632_REG_CONTROL (some v),
              Event.regWrite K.RC632_REG_CONTROL w true] ∧
            (T.reg_write (T.reg_read s1 K.RC632_REG_CONTROL).1 K.RC632_REG_CONTROL w).2 =
              true ∧
            s2 = (T.reg_write (T.reg_read s1 K.RC632_REG_CONTROL).1
              K.RC632_REG_CONTROL w).1)) ∧
      (T.reg_write s2 K.RC632_REG_CHANNEL_REDUNDANCY (red K F rf)).2 = true ∧
      (_clrc632_set_rf_mode K F T cci rf).1.st =
        (T.reg_write s2 K.RC632_REG_CHANNEL_REDUNDANCY (red K F rf)).1 ∧
      (_clrc632_set_rf_mode K F T cci rf).1.trace =
        cci.trace ++
          Event.regWrite K.RC632_REG_BIT_FRAMING
            (((rf.rx_align <<< 4) ||| rf.tx_last_bits) % 256) true ::
          (mid ++ [Event.regWrite K.RC632_REG_CHANNEL_REDUNDANCY (red K F rf) true]) ∧
      (K.RC632_REG_CHANNEL_REDUNDANCY ≠ K.RC632_REG_BIT_FRAMING →
        K.RC632_REG_CHANNEL_REDUNDANCY ≠ K.RC632_REG_CONTROL →
        regWritesTo K.RC632_REG_CHANNEL_REDUNDANCY
          (Event.regWrite K.RC632_REG_BIT_FRAMING
            (((rf.rx_align <<< 4) ||| rf.tx_last_bits) % 256) true ::
          (mid ++ [Event.regWrite K.RC632_REG_CHANNEL_REDUNDANCY (red K F rf) true])) =
          [red K F rf])) ∧
    red K F rf =
      (if rf.flags &&& F.RF_TX_CRC ≠ 0 then K.RC632_CR_TX_CRC_ENABLE else 0) |||
      (if rf.flags &&& F.RF_RX_CRC ≠ 0 then K.RC632_CR_RX_CRC_ENABLE else 0) |||
      (if rf.flags &&& F.RF_PARITY_ENABLE ≠ 0 then K.RC632_CR_PARITY_ENABLE else 0) |||
      (if rf.flags &&& F.RF_PARITY_EVEN ≠ 0 then 0 else K.RC632_CR_PARITY_ODD) ∧
    (rf.rx_align < 16 → rf.tx_last_bits < 256 →
      ((rf.rx_align <<< 4) ||| rf.tx_last_bits) % 256 =
        (rf.rx_align <<< 4) ||| rf.tx_last_bits) := by
  refine ⟨?_, ?_, ?_⟩
  · -- the three steps of the call
    generalize hbf : ((rf.rx_align <<< 4) ||| rf.tx_last_bits) % 256 = bf at hok ⊢
    have hstep : ∀ r2 : Dev σ × Bool,
        r2 = (if rf.flags &&& F.RF_CRYPTO1 ≠ 0 then
            asic_clear_bits T (reg_write T cci K.RC632_REG_BIT_FRAMING bf).1
              K.RC632_REG_CONTROL K.RC632_CONTROL_CRYPTO1_ON
          else
            asic_set_bits T (reg_write T cci K.RC632_REG_BIT_FRAMING bf).1
              K.RC632_REG_CONTROL K.RC632_CONTROL_CRYPTO1_ON) →
        _clrc632_set_rf_mode K F T cci rf =
          if (reg_write T cci K.RC632_REG_BIT_FRAMING bf).2 = false then
            ((reg_write T cci K.RC632_REG_BIT_FRAMING bf).1, false)
          else if r2.2 = false then (r2.1, false)
          else if (reg_write T r2.1 K.RC632_REG_CHANNEL_REDUNDANCY (red K F rf)).2 = false
            then ((reg_write T r2.1 K.RC632_REG_CHANNEL_REDUNDANCY (red K F rf)).1, false)
          else ((reg_write T r2.1 K.RC632_REG_CHANNEL_REDUNDANCY (red K F rf)).1, true) := by
      intro r2 hr2
      subst hr2
      subst hbf
      rfl
    obtain ⟨r2, hr2⟩ : ∃ r2 : Dev σ × Bool,
        r2 = (if rf.flags &&& F.RF_CRYPTO1 ≠ 0 then
            asic_clear_bits T (reg_write T cci K.RC632_REG_BIT_FRAMING bf).1
              K.RC632_REG_CONTROL K.RC632_CONTROL_CRYPTO1_ON
          else
            asic_set_bits T (reg_write T cci K.RC632_REG_BIT_FRAMING bf).1
              K.RC632_REG_CONTROL K.RC632_CONTROL_CRYPTO1_ON) := ⟨_, rfl⟩
    have hdef := hstep r2 hr2
    rw [hdef] at hok ⊢
    have h1 : (T.reg_write cci.st K.RC632_REG_BIT_FRAMING bf).2 = true := by
      by_contra hne
      have hf : (reg_write T cci K.RC632_REG_BIT_FRAMING bf).2 = false := by
        simpa [reg_write] using hne
      simp [hf] at hok
    have h1' : (reg_write T cci K.RC632_REG_BIT_FRAMING bf).2 = true := h1
    have h2 : r2.2 = true := by
      by_contra hne
      have hf : r2.2 = false := by simpa using hne
      simp [h1', hf] at hok
    have h3 : (T.reg_write r2.1.st K.RC632_REG_CHANNEL_REDUNDANCY (red K F rf)).2 = true := by
      by_contra hne
      have hf : (reg_write T r2.1 K.RC632_REG_CHANNEL_REDUNDANCY (red K F rf)).2 = false := by
        simpa [reg_write] using hne
      simp [h1', h2, hf] at hok
    have h3' : (reg_write T r2.1 K.RC632_REG_CHANNEL_REDUNDANCY (red K F rf)).2 = true := h3
    simp only [h1', h2, h3', Bool.true_eq_false, if_false]
    have hr1 : (reg_write T cci K.RC632_REG_BIT_FRAMING bf).1 =
        ⟨(T.reg_write cci.st K.RC632_REG_BIT_FRAMING bf).1,
          cci.trace ++ [Event.regWrite K.RC632_REG_BIT_FRAMING bf true]⟩ := by
      simp [reg_write, h1]
    have hrun : ∃ v, (T.reg_read (T.reg_write cci.st K.RC632_REG_BIT_FRAMING bf).1
          K.RC632_REG_CONTROL).2.map (fun v => v % 256) = some v ∧
        (r2.1 = ⟨(T.reg_read (T.reg_write cci.st K.RC632_REG_BIT_FRAMING bf).1
              K.RC632_REG_CONTROL).1,
            cci.trace ++ [Event.regWrite K.RC632_REG_BIT_FRAMING bf true,
              Event.regRead K.RC632_REG_CONTROL (some v)]⟩ ∨
          ∃ w, (T.reg_write (T.reg_read (T.reg_write cci.st K.RC632_REG_BIT_FRAMING bf).1
              K.RC632_REG_CONTROL).1 K.RC632_REG_CONTROL w).2 = true ∧
            r2.1 = ⟨(T.reg_write (T.reg_read (T.reg_write cci.st K.RC632_REG_BIT_FRAMING bf).1
                K.RC632_REG_CONTROL).1 K.RC632_REG_CONTROL w).1,
              cci.trace ++ [Event.regWrite K.RC632_REG_BIT_FRAMING bf true,
                Event.regRead K.RC632_REG_CONTROL (some v),
                Event.regWrite K.RC632_REG_CONTROL w true]⟩) := by
      rw [hr2] at h2 ⊢
      split_ifs at h2 ⊢
      · obtain ⟨v, hv, hcase⟩ := asic_clear_bits_run T _ _ _ h2
        rw [hr1] at hv hcase
        refine ⟨v, hv, ?_⟩
        rcases hcase with hc | ⟨w, hw, hc⟩
        · left; rw [hr1, hc]; simp
        · right; exact ⟨w, hw, by rw [hr1, hc]; simp⟩
      · obtain ⟨v, hv, hcase⟩ := asic_set_bits_run T _ _ _ h2
        rw [hr1] at hv hcase
        refine ⟨v, hv, ?_⟩
        rcases hcase with hc | ⟨w, hw, hc⟩
        · left; rw [hr1, hc]; simp
        · right; exact ⟨w, hw, by rw [hr1, hc]; simp⟩
    have hr3 : (reg_write T r2.1 K.RC632_REG_CHANNEL_REDUNDANCY (red K F rf)).1 =
        ⟨(T.reg_write r2.1.st K.RC632_REG_CHANNEL_REDUNDANCY (red K F rf)).1,
          r2.1.trace ++ [Event.regWrite K.RC632_REG_CHANNEL_REDUNDANCY (red K F rf) true]⟩ := by
      simp [reg_write, h3]
    obtain ⟨v, hv, hcase⟩ := hrun
    rcases hcase with hc | ⟨w, hw, hc⟩
    · refine ⟨_, r2.1.st, [Event.regRead K.RC632_REG_CONTROL (some v)], h1, rfl,
        ⟨v, hv, Or.inl ⟨rfl, by rw [hc]⟩⟩, h3, by rw [hr3], ?_, ?_⟩
      · rw [hr3, hc]; simp
      · intro hne1 hne2
        simp [regWritesTo, Ne.symm hne1]
    · refine ⟨_, r2.1.st, [Event.regRead K.RC632_REG_CONTROL (some v),
        Event.regWrite K.RC632_REG_CONTROL w true], h1, rfl,
        ⟨v, hv, Or.inr ⟨w, rfl, hw, by rw [hc]⟩⟩, h3, by rw [hr3], ?_, ?_⟩
      · rw [hr3, hc]; simp
      · intro hne1 hne2
        simp [regWritesTo, Ne.symm hne1, Ne.symm hne2]
  · unfold red
    simp only []
    split_ifs <;> simp
  · intro ha hb
    apply Nat.mod_eq_of_lt
    have h1 : rf.rx_align <<< 4 < 2 ^ 8 := by
      rw [Nat.shiftLeft_eq]
      omega
    have := Nat.or_lt_two_pow h1 (show rf.tx_last_bits < 2 ^ 8 by omega)
    simpa using this

/-- A mode with TX_CRC, RX_CRC and PARITY_ENABLE set and PARITY_EVEN clear, on a
register file that is all zero: the call succeeds, the redundancy byte is
0x0f, and the register file ends with BIT_FRAMING (0x0f) holding 7 and
CHANNEL_REDUNDANCY (0x22) holding 0x0f. -/
theorem set_rf_mode_redundancy_witness :
    (_clrc632_set_rf_mode rc632 rfid regfile ⟨regsAll 0, []⟩
      { tx_last_bits := 7, rx_align := 0, flags := 0x0e }).2 = true ∧
    red rc632 rfid { tx_last_bits := 7, rx_align := 0, flags := 0x0e } = 0x0f ∧
    (_clrc632_set_rf_mode rc632 rfid regfile ⟨regsAll 0, []⟩
      { tx_last_bits := 7, rx_align := 0, flags := 0x0e }).1.st 0x0f = 7 ∧
    (_clrc632_set_rf_mode rc632 rfid regfile ⟨regsAll 0, []⟩
      { tx_last_bits := 7, rx_align := 0, flags := 0x0e }).1.st 0x22 = 0x0f := by
  have h := set_rf_mode_redundancy rc632 rfid regfile ⟨regsAll 0, []⟩
    { tx_last_bits := 7, rx_align := 0, flags := 0x0e } (by decide)
  refine ⟨by decide, ?_, ?_, ?_⟩
  · rw [h.2.1]
    decide
  · decide
  · obtain ⟨s1, s2, mid, -, -, -, -, hst, -, -⟩ := h.1
    rw [hst]
    rfl

/-! ## C16 -/

/-- C16 fails on the code: `_clrc632_set_rf_mode` with the RF_CRYPTO1 flag set,
on a register file whose CONTROL holds CRYPTO1_ON, succeeds and leaves the bit
clear; with no flag set, on a CONTROL of 0, it succeeds and leaves the bit
set. The two branches are the wrong way round. -/
theorem set_rf_mode_crypto1_inverted :
    (_clrc632_set_rf_mode rc632 rfid regfile ⟨regsAll 0x08, []⟩
      { tx_last_bits := 0, rx_align := 0, flags := rfid.RF_CRYPTO1 }).2 = true ∧
    (_clrc632_set_rf_mode rc632 rfid regfile ⟨regsAll 0x08, []⟩
      { tx_last_bits := 0, rx_align := 0, flags := rfid.RF_CRYPTO1 }).1.st
        rc632.RC632_REG_CONTROL &&& rc632.RC632_CONTROL_CRYPTO1_ON = 0 ∧
    (_clrc632_set_rf_mode rc632 rfid regfile ⟨regsAll 0, []⟩
      { tx_last_bits := 0, rx_align := 0, flags := 0 }).2 = true ∧
    (_clrc632_set_rf_mode rc632 rfid regfile ⟨regsAll 0, []⟩
      { tx_last_bits := 0, rx_align := 0, flags := 0 }).1.st
        rc632.RC632_REG_CONTROL &&& rc632.RC632_CONTROL_CRYPTO1_ON =
          rc632.RC632_CONTROL_CRYPTO1_ON ∧
    (_clrc632_set_rf_mode rc632 rfid regfile ⟨regsAll 0, []⟩
      { tx_last_bits := 0, rx_align := 0, flags := 0 }).1.trace =
      [Event.regWrite 0x0f 0 true, Event.regRead 0x09 (some 0),
       Event.regWrite 0x09 0x08 true, Event.regWrite 0x22 0x02 true] := by
  decide

/-! ## C17 -/

/-- C18 fails on the code: for `timeout = 100000` no prescaler passes the checks
on `10 * timeout`, `best_prescaler` leaves the divisor unassigned, and
`timer_set` still makes all five writes and reports success; the byte loaded
into TIMER_RELOAD is whatever the uninitialised local held (`junk`). -/
theorem timer_set_unset_divisor (junk : Nat) :
    best_prescaler (100000 * TIMER_RELAX_FACTOR % 2 ^ 64) = (0, none) ∧
    (timer_set rc632 (stub (fun _ => 0) []) junk ⟨(), []⟩ 100000).2 = true ∧
    (timer_set rc632 (stub (fun _ => 0) []) junk ⟨(), []⟩ 100000).1.trace =
      [Event.regWrite 0x2a 0 true, Event.regWrite 0x2b 0x06 true,
       Event.regWrite 0x07 0x20 true, Event.regWrite 0x06 0xa0 true,
       Event.regWrite 0x2c (junk % 256) true] := by
  have h : best_prescaler (100000 * TIMER_RELAX_FACTOR % 2 ^ 64) = (0, none) := by decide
  have h' : best_prescaler (100000 * TIMER_RELAX_FACTOR % 18446744073709551616) = (0, none) := h
  refine ⟨h, ?_, ?_⟩
  · simp [timer_set, reg_write, clear_irqs, stub]
  · simp only [timer_set, reg_write, clear_irqs, stub, rc632, bnot8]
    simp only [Bool.true_eq_false, if_false, List.nil_append, List.cons_append]
    rw [h]
    rfl

/-! ## C19 -/

/-- C19 as stated fails once the 64-bit arithmetic wraps: for `T = 3 * 2^62`
prescaler 0 passes every check and the search returns divisor 1, and for
`T = 2^63` prescaler 20 passes the range check and is then rejected by
`diff < 0`. -/
theorem best_prescaler_wraps :
    (1000000 ≤ 3 * 2 ^ 62 ∧ 3 * 2 ^ 62 < 2 ^ 64) ∧
    candidate (3 * 2 ^ 62) 0 ∧
    best_prescaler (3 * 2 ^ 62) = (0, some 1) ∧
    ¬ (tmp_div (2 ^ 63) 20 > 0xff ∨ tmp_div (2 ^ 63) 20 > clk 20) ∧
    diff (2 ^ 63) 20 < 0 := by
  decide!

/-- C19, amended to timeouts `T` for which the 64-bit product `clk * T` cannot
wrap (`13560000 * T < 2^64`): the divisor tried for prescaler `i` is
`clk_i * T / 1000000 + 1`; whenever it passes the range check the achieved
timeout is at least `T`, so the `diff < 0` test does not reject; a candidate
among the prescalers 0..20 exists exactly when `T ≤ 999999`, prescaler 20
(clock 12) being one for every such `T`; and for `T ≥ 1000000` the search
returns prescaler 0 with the divisor never assigned. -/
theorem best_prescaler_domain (T : Nat) (hT : 13560000 * T < 2 ^ 64) :
    (∀ i, tmp_div T i = clk i * T / 1000000 + 1) ∧
    (∀ i, i ≤ 20 → clk i * T / 1000000 + 1 ≤ 255 → clk i * T / 1000000 + 1 ≤ clk i →
      T ≤ 1000000 / (clk i / (clk i * T / 1000000 + 1)) ∧ ¬ diff T i < 0) ∧
    ((∃ i, i ≤ 20 ∧ candidate T i) ↔ T ≤ 999999) ∧
    (T ≤ 999999 → clk 20 = 12 ∧ candidate T 20) ∧
    (1000000 ≤ T → best_prescaler T = (0, none)) := by
  have h63 : T < 2 ^ 63 := by omega
  refine ⟨tmp_div_eq_of_no_wrap hT, ?_, ?_, ?_, ?_⟩
  · intro i _ _ hclk
    have hge := achieved_ge (clk i) T hclk
    refine ⟨hge, ?_⟩
    rw [diff_eq_of_lt h63]
    unfold res
    rw [tmp_div_eq_of_no_wrap hT]
    omega
  · constructor
    · rintro ⟨i, _, hc⟩
      by_contra hgt
      exact not_candidate_of_ge hT (by omega) i hc
    · intro hle
      exact ⟨20, le_rfl, candidate_20 (by omega)⟩
  · intro hle
    exact ⟨by decide, candidate_20 (by omega)⟩
  · intro hge
    unfold best_prescaler
    simp only
    rw [best_prescaler_fold_none T _ _ (fun i _ => not_candidate_of_ge hT hge i)]

theorem best_prescaler_domain_witness :
    13560000 * 5000000 < 2 ^ 64 ∧ best_prescaler 5000000 = (0, none) ∧
    ¬ ∃ i, i ≤ 20 ∧ candidate 5000000 i := by
  have h := best_prescaler_domain 5000000 (by decide)
  refine ⟨by decide, h.2.2.2.2 (by decide), ?_⟩
  intro hex
  have := h.2.2.1.1 hex
  omega

end Clrc632

namespace Emv

/-! ## Properties of the tag lookup -/

theorem memcmp_at_eq_zero (s1 s2 : Nat → Nat) (n : Nat) :
    ∀ k, memcmp_at s1 s2 k n = 0 ↔ ∀ j, j < n → s1 (k + j) = s2 (k + j) := by
  induction n with
  | zero => intro k; simp [memcmp_at]
  | succ n ih =>
    intro k
    unfold memcmp_at
    by_cases h : s1 k = s2 k
    · simp only [h, ne_eq, not_true_eq_false, if_false]
      rw [ih (k + 1)]
      constructor
      · intro hall j hj
        cases j with
        | zero => simpa using h
        | succ j =>
          have := hall j (by omega)
          rw [show k + (j + 1) = k + 1 + j by omega]
          exact this
      · intro hall j hj
        have := hall (j + 1) (by omega)
        rw [show k + 1 + j = k + (j + 1) by omega]
        exact this
    · simp only [ne_eq, h, not_false_eq_true, if_true]
      constructor
      · intro h0
        exfalso
        apply h
        omega
      · intro hall
        exact absurd (by simpa using hall 0 (by omega)) h

theorem memcmp_at_antisymm (s1 s2 : Nat → Nat) (n : Nat) :
    ∀ k, memcmp_at s2 s1 k n = - memcmp_at s1 s2 k n := by
  induction n with
  | zero => intro k; simp [memcmp_at]
  | succ n ih =>
    intro k
    unfold memcmp_at
    by_cases h : s1 k = s2 k
    · simp only [h, ne_eq, not_true_eq_false, if_false]
      exact ih (k + 1)
    · have h' : ¬ s2 k = s1 k := fun e => h e.symm
      simp only [ne_eq, h, h', not_false_eq_true, if_true]
      omega

theorem memcmp_at_congr_left (s1 s1' s2 : Nat → Nat) (n : Nat) :
    ∀ k, (∀ j, j < n → s1 (k + j) = s1' (k + j)) →
      memcmp_at s1 s2 k n = memcmp_at s1' s2 k n := by
  induction n with
  | zero => intro k _; simp [memcmp_at]
  | succ n ih =>
    intro k hall
    have h0 : s1 k = s1' k := by simpa using hall 0 (by omega)
    unfold memcmp_at
    rw [h0, ih (k + 1)]
    intro j hj
    have := hall (j + 1) (by omega)
    rw [show k + 1 + j = k + (j + 1) by omega]
    exact this

theorem memcmp_eq_zero (s1 s2 : Nat → Nat) (n : Nat) :
    memcmp s1 s2 n = 0 ↔ ∀ j, j < n → s1 j = s2 j := by
  unfold memcmp
  rw [memcmp_at_eq_zero]
  simp

theorem memcmp_antisymm (s1 s2 : Nat → Nat) (n : Nat) :
    memcmp s2 s1 n = - memcmp s1 s2 n := memcmp_at_antisymm s1 s2 n 0

theorem memcmp_congr_left (s1 s1' s2 : Nat → Nat) (n : Nat)
    (h : ∀ j, j < n → s1 j = s1' j) : memcmp s1 s2 n = memcmp s1' s2 n := by
  unfold memcmp
  apply memcmp_at_congr_left
  simpa using h

/-- The comparison is zero exactly on the entry looked for. -/
theorem tag_cmp_eq_zero (e : ber_tag) (idb : Nat → Nat) (len : Nat) :
    tag_cmp e idb len = 0 ↔ tag_matches e idb len := by
  unfold tag_cmp tag_matches
  by_cases h1 : e.tag_len < len
  · simp only [h1, if_true]
    constructor
    · intro h; exact absurd h (by norm_num)
    · intro h; omega
  · by_cases h2 : e.tag_len > len
    · simp only [h1, h2, if_true, if_false]
      constructor
      · intro h; exact absurd h (by norm_num)
      · intro h; omega
    · simp only [h1, h2, if_false]
      rw [memcmp_eq_zero]
      constructor
      · intro h
        exact ⟨by omega, fun k hk => (h k hk).symm⟩
      · intro h k hk
        exact (h.2 k hk).symm

/-- An entry above one that compares below the key cannot be the key. -/
theorem no_match_above (m e : ber_tag) (idb : Nat → Nat) (len : Nat)
    (hcmp : tag_cmp m idb len < 0) (hlt : tag_lt m e) : ¬ tag_matches e idb len := by
  intro hm
  obtain ⟨hlen, hbytes⟩ := hm
  unfold tag_cmp at hcmp
  unfold tag_lt at hlt
  by_cases h1 : m.tag_len < len
  · simp only [h1, if_true] at hcmp
    omega
  · by_cases h2 : m.tag_len > len
    · rcases hlt with h | ⟨h, _⟩ <;> omega
    · simp only [h1, h2, if_false] at hcmp
      have hml : m.tag_len = len := by omega
      rcases hlt with h | ⟨_, h⟩
      · omega
      · rw [hml] at h
        have h3 : memcmp e.tag m.tag len = memcmp idb m.tag len :=
          memcmp_congr_left _ _ _ _ hbytes
        have h4 := memcmp_antisymm m.tag e.tag len
        omega

/-- An entry below one that compares above the key cannot be the key. -/
theorem no_match_below (m e : ber_tag) (idb : Nat → Nat) (len : Nat)
    (hcmp : tag_cmp m idb len > 0) (hlt : tag_lt e m) : ¬ tag_matches e idb len := by
  intro hm
  obtain ⟨hlen, hbytes⟩ := hm
  unfold tag_cmp at hcmp
  unfold tag_lt at hlt
  by_cases h1 : m.tag_len < len
  · rcases hlt with h | ⟨h, _⟩ <;> omega
  · by_cases h2 : m.tag_len > len
    · simp only [h1, h2, if_true, if_false] at hcmp
      omega
    · simp only [h1, h2, if_false] at hcmp
      rcases hlt with h | ⟨_, h⟩
      · omega
      · rw [hlen] at h
        have h3 : memcmp e.tag m.tag len = memcmp idb m.tag len :=
          memcmp_congr_left _ _ _ _ hbytes
        omega

/-- The loop invariant of the search: every entry outside the window
`[base, base + num)` is known not to be the key. -/
theorem find_tag_from_spec (tags : Nat → ber_tag) (n : Nat) (idb : Nat → Nat) (len : Nat)
    (hsorted : ∀ j, j < n → ∀ i, i < j → tag_lt (tags i) (tags j)) :
    ∀ num base, base + num ≤ n →
      (∀ j, j < n → (j < base ∨ base + num ≤ j) → ¬ tag_matches (tags j) idb len) →
      match find_tag_from tags idb len base num with
      | some idx => idx < n ∧ tag_matches (tags idx) idb len
      | none => ∀ j, j < n → ¬ tag_matches (tags j) idb len := by
  intro num
  induction num using Nat.strong_induction_on with
  | _ num ih =>
    intro base hle hout
    rw [find_tag_from]
    by_cases h0 : num = 0
    · simp only [h0, dif_pos]
      intro j hj
      exact hout j hj (by omega)
    · simp only [h0, dif_neg, not_false_eq_true]
      have hi : num / 2 < num := Nat.div_lt_self (by omega) (by norm_num)
      have hm : base + num / 2 < n := by omega
      by_cases hneg : tag_cmp (tags (base + num / 2)) idb len < 0
      · simp only [hneg, if_true]
        apply ih (num / 2) hi base (by omega)
        intro j hj hjout
        rcases hjout with hlt | hge
        · exact hout j hj (Or.inl hlt)
        · by_cases hjm : j = base + num / 2
          · subst hjm
            intro hmatch
            have := (tag_cmp_eq_zero _ _ _).2 hmatch
            omega
          · exact no_match_above _ _ idb len hneg
              (hsorted j hj (base + num / 2) (by omega))
      · simp only [hneg, if_false]
        by_cases hpos : tag_cmp (tags (base + num / 2)) idb len > 0
        · simp only [hpos, if_true]
          apply ih (num - (num / 2 + 1)) (by omega) (base + (num / 2 + 1)) (by omega)
          intro j hj hjout
          rcases hjout with hlt | hge
          · by_cases hjm : j = base + num / 2
            · subst hjm
              intro hmatch
              have := (tag_cmp_eq_zero _ _ _).2 hmatch
              omega
            · by_cases hjb : j < base
              · exact hout j hj (Or.inl hjb)
              · exact no_match_below _ _ idb len hpos
                  (hsorted (base + num / 2) hm j (by omega))
          · exact hout j hj (Or.inr (by omega))
        · simp only [hpos, if_false]
          exact ⟨hm, (tag_cmp_eq_zero _ _ _).1 (by omega)⟩

/-! ## C20 -/

/-- C20: `find_tag` is a total function, and on a table of `n` entries in
strictly ascending order (by `tag_len`, then by `memcmp` of the tag bytes) it
returns an entry of the table whose length and bytes are those of the key if
the table has one, and `NULL` if it has none; on the empty table it returns
`NULL`. -/
theorem find_tag_correct (tags : Nat → ber_tag) (n : Nat) (idb : Nat → Nat) (len : Nat)
    (hsorted : ∀ j, j < n → ∀ i, i < j → tag_lt (tags i) (tags j)) :
    (∀ idx, find_tag tags n idb len = some idx →
      idx < n ∧ (tags idx).tag_len = len ∧ ∀ k, k < len → (tags idx).tag k = idb k) ∧
    ((∃ j, j < n ∧ (tags j).tag_len = len ∧ ∀ k, k < len → (tags j).tag k = idb k) →
      ∃ idx, find_tag tags n idb len = some idx) ∧
    ((¬ ∃ j, j < n ∧ (tags j).tag_len = len ∧ ∀ k, k < len → (tags j).tag k = idb k) →
      find_tag tags n idb len = none) ∧
    find_tag tags 0 idb len = none := by
  have hspec := find_tag_from_spec tags n idb len hsorted n 0 (by omega)
    (fun j hj hout => by omega)
  unfold find_tag
  refine ⟨?_, ?_, ?_, ?_⟩
  · intro idx hidx
    rw [hidx] at hspec
    exact ⟨hspec.1, hspec.2.1, hspec.2.2⟩
  · rintro ⟨j, hj, hlen, hbytes⟩
    cases hres : find_tag_from tags idb len 0 n with
    | some idx => exact ⟨idx, rfl⟩
    | none =>
      rw [hres] at hspec
      exact absurd ⟨hlen, hbytes⟩ (hspec j hj)
  · intro hnone
    cases hres : find_tag_from tags idb len 0 n with
    | none => rfl
    | some idx =>
      rw [hres] at hspec
      exact absurd ⟨idx, hspec.1, hspec.2.1, hspec.2.2⟩ hnone
  · rw [find_tag_from]
    simp

theorem find_tag_correct_witness :
    (∃ idx, find_tag sampleTags 3 (bytes [0x9f, 0x26]) 2 = some idx ∧ idx < 3 ∧
      (sampleTags idx).tag_len = 2) ∧
    find_tag sampleTags 3 (bytes [0x9f, 0x26]) 2 = some 1 ∧
    find_tag sampleTags 3 (bytes [0x9f, 0x10]) 2 = none := by
  have h := find_tag_correct sampleTags 3 (bytes [0x9f, 0x26]) 2 (by decide)
  have h' := find_tag_correct sampleTags 3 (bytes [0x9f, 0x10]) 2 (by decide)
  refine ⟨?_, ?_, ?_⟩
  · obtain ⟨idx, hidx⟩ := h.2.1 ⟨1, by decide, by decide, by decide⟩
    exact ⟨idx, hidx, (h.1 idx hidx).1, (h.1 idx hidx).2.1⟩
  · unfold find_tag
    rw [find_tag_from]
    simp [tag_cmp, sampleTags, memcmp, memcmp_at, bytes]
  · apply h'.2.2.1
    decide

/-! ## Properties of the PIN block -/

theorem testBit_15 (j : Nat) : (15 : Nat).testBit j = decide (j < 4) := by
  have h : (15 : Nat) = 2 ^ 4 - 1 := by norm_num
  rw [h, Nat.testBit_two_pow_sub_one]

theorem testBit_240 (j : Nat) : (240 : Nat).testBit j = (decide (4 ≤ j) && decide (j < 8)) := by
  have h : (240 : Nat) = 15 <<< 4 := by decide
  rw [h, Nat.testBit_shiftLeft, testBit_15]
  by_cases h4 : 4 ≤ j
  · have : decide (j - 4 < 4) = decide (j < 8) := by
      by_cases h8 : j < 8
      · simp [h8]; omega
      · simp [h8]; omega
    simp [h4, this]
  · simp [h4]

/-- Storing a digit in the low nibble keeps the high nibble of the byte. -/
theorem low_store_high (x d : Nat) :
    ((((x &&& 0xf0) ||| (d &&& 0xf)) % 256) >>> 4) &&& 0xf = (x >>> 4) &&& 0xf := by
  apply Nat.eq_of_testBit_eq
  intro j
  have h256 : (256 : Nat) = 2 ^ 8 := by norm_num
  simp only [Nat.testBit_and, Nat.testBit_shiftRight, h256, Nat.testBit_mod_two_pow,
    Nat.testBit_or, testBit_15, testBit_240]
  by_cases h4 : j < 4
  · have h1 : 4 + j < 8 := by omega
    have h2 : 4 ≤ 4 + j := by omega
    have h3 : ¬ (4 + j < 4) := by omega
    simp [h4, h1, h2, h3]
  · simp [h4]

/-- Storing a digit in the low nibble makes the low nibble that digit. -/
theorem low_store_low (x d : Nat) (hd : d ≤ 9) :
    (((x &&& 0xf0) ||| (d &&& 0xf)) % 256) &&& 0xf = d := by
  apply Nat.eq_of_testBit_eq
  intro j
  have h256 : (256 : Nat) = 2 ^ 8 := by norm_num
  simp only [Nat.testBit_and, h256, Nat.testBit_mod_two_pow,
    Nat.testBit_or, testBit_15, testBit_240]
  by_cases h4 : j < 4
  · have h1 : j < 8 := by omega
    have h2 : ¬ (4 ≤ j) := by omega
    simp [h4, h1, h2]
  · have hdj : d.testBit j = false := by
      apply Nat.testBit_lt_two_pow
      calc d < 2 ^ 4 := by omega
        _ ≤ 2 ^ j := Nat.pow_le_pow_right (by norm_num) (by omega)
    simp [h4, hdj]

/-- Storing a digit in the high nibble: the high nibble is the digit, the low
nibble is 0xF. -/
theorem high_store (d : Nat) (hd : d ≤ 9) :
    ((((d <<< 4) ||| 0xf) % 256) >>> 4) &&& 0xf = d ∧
    (((d <<< 4) ||| 0xf) % 256) &&& 0xf = 0xf := by
  interval_cases d <;> decide

/-- A digit character has a value of at most 9. -/
theorem isdigit_val {c : Nat} (h : isdigit c = true) : 0x30 ≤ c ∧ c - 0x30 ≤ 9 := by
  unfold isdigit at h
  simp only [Bool.and_eq_true, decide_eq_true_eq] at h
  omega

/-- A string without a NUL inside has the length of its character list. -/
theorem strlen_eq_length (s : List Nat) (h : ∀ c ∈ s, c ≠ 0) : strlen s = s.length := by
  unfold strlen
  rw [List.takeWhile_eq_self_iff.mpr]
  intro c hc
  simpa using h c hc

/-- The nibbles of a block after one byte of it is replaced. -/
theorem nibble_update (pb : Nat → Nat) (i v k : Nat) :
    nibble (Function.update pb (1 + i / 2) v) k =
      if k / 2 = i / 2 then (if k % 2 = 0 then (v >>> 4) &&& 0xf else v &&& 0xf)
      else nibble pb k := by
  unfold nibble
  by_cases h : k / 2 = i / 2
  · rw [h]; simp
  · have h1 : 1 + k / 2 ≠ 1 + i / 2 := by omega
    simp [h, Function.update_noteq h1]

/-- The loop succeeds exactly when every character left is a digit. -/
theorem pin2pb_loop_ok (rest : List Nat) :
    ∀ (i : Nat) (pb : Nat → Nat), (∀ c ∈ rest, c ≠ 0) →
      ((pin2pb_loop rest i pb).1 = true ↔ ∀ c ∈ rest, isdigit c = true) := by
  induction rest with
  | nil => intro i pb _; simp [pin2pb_loop]
  | cons c rest ih =>
    intro i pb h0
    have hc : c ≠ 0 := h0 c (List.mem_cons_self _ _)
    have hr : ∀ x ∈ rest, x ≠ 0 := fun x hx => h0 x (List.mem_cons_of_mem _ hx)
    by_cases hd : isdigit c = true
    · by_cases hi : i &&& 0x1 ≠ 0
      · simp only [pin2pb_loop, hc, hd, hi, if_true, if_false, Bool.true_eq_false,
          not_false_eq_true, ne_eq, List.mem_cons, forall_eq_or_imp, true_and]
        exact ih _ _ hr
      · simp only [pin2pb_loop, hc, hd, hi, if_true, if_false, Bool.true_eq_false,
          List.mem_cons, forall_eq_or_imp, true_and]
        exact ih _ _ hr
    · have hd' : isdigit c = false := by simpa using hd
      simp [pin2pb_loop, hc, hd']

/-- What the loop leaves in the block when every character left is a digit:
byte 0 and the nibbles before index `i` are kept, nibble `i + k` holds the value
of the `k`-th character left, and a nibble past the last character that was 0xF
is still 0xF. -/
theorem pin2pb_loop_block (rest : List Nat) :
    ∀ (i : Nat) (pb : Nat → Nat), (∀ c ∈ rest, c ≠ 0) → (∀ c ∈ rest, isdigit c = true) →
      (pin2pb_loop rest i pb).2 0 = pb 0 ∧
      (∀ k, k < i → nibble (pin2pb_loop rest i pb).2 k = nibble pb k) ∧
      (∀ k (hk : k < rest.length),
        nibble (pin2pb_loop rest i pb).2 (i + k) = rest[k] - 0x30) ∧
      (∀ k, i + rest.length ≤ k → nibble pb k = 0xf →
        nibble (pin2pb_loop rest i pb).2 k = 0xf) := by
  induction rest with
  | nil =>
    intro i pb _ _
    refine ⟨by simp [pin2pb_loop], ?_, ?_, ?_⟩
    · intro k _; simp [pin2pb_loop]
    · intro k hk; simp at hk
    · intro k _ h; simpa [pin2pb_loop] using h
  | cons c rest ih =>
    intro i pb h0 hdig
    have hc : c ≠ 0 := h0 c (List.mem_cons_self _ _)
    have hr : ∀ x ∈ rest, x ≠ 0 := fun x hx => h0 x (List.mem_cons_of_mem _ hx)
    have hd : isdigit c = true := hdig c (List.mem_cons_self _ _)
    have hdr : ∀ x ∈ rest, isdigit x = true := fun x hx => hdig x (List.mem_cons_of_mem _ hx)
    have hv := (isdigit_val hd).2
    have hsh : i >>> 1 = i / 2 := by rw [Nat.shiftRight_eq_div_pow, pow_one]
    have hand : i &&& 0x1 = i % 2 := Nat.and_one_is_mod i
    -- the block after this iteration
    obtain ⟨pb', hstep, hb0, hlt, hi, hgt⟩ :
        ∃ pb', pin2pb_loop (c :: rest) i pb = pin2pb_loop rest (i + 1) pb' ∧
          pb' 0 = pb 0 ∧
          (∀ k, k < i → nibble pb' k = nibble pb k) ∧
          nibble pb' i = c - 0x30 ∧
          (∀ k, i < k → nibble pb k = 0xf → nibble pb' k = 0xf) := by
      by_cases hodd : i % 2 = 1
      · refine ⟨Function.update pb (1 + i / 2)
          (((pb (1 + i / 2) &&& 0xf0) ||| ((c - 0x30) &&& 0xf)) % 256), ?_, ?_, ?_, ?_, ?_⟩
        · have hne : i &&& 0x1 ≠ 0 := by rw [hand]; omega
          simp only [pin2pb_loop, hc, hd, hne, if_true, if_false, Bool.true_eq_false,
            not_false_eq_true, ne_eq, hsh]
        · exact Function.update_noteq (by omega) _ _
        · intro k hk
          rw [nibble_update]
          by_cases hk2 : k / 2 = i / 2
          · have hk0 : k % 2 = 0 := by omega
            simp only [hk2, hk0, if_true]
            rw [low_store_high]
            unfold nibble
            simp [hk0, hk2]
          · simp [hk2]
        · rw [nibble_update]
          have : ¬ (i % 2 = 0) := by omega
          simp only [if_true, this, if_false]
          exact low_store_low _ _ hv
        · intro k hk hf
          rw [nibble_update]
          have : ¬ (k / 2 = i / 2) := by omega
          simpa [this] using hf
      · have hev : i % 2 = 0 := by omega
        refine ⟨Function.update pb (1 + i / 2) ((((c - 0x30) <<< 4) ||| 0xf) % 256),
          ?_, ?_, ?_, ?_, ?_⟩
        · have hne : ¬ (i &&& 0x1 ≠ 0) := by rw [hand]; omega
          simp only [pin2pb_loop, hc, hd, hne, if_true, if_false, Bool.true_eq_false, hsh]
        · exact Function.update_noteq (by omega) _ _
        · intro k hk
          rw [nibble_update]
          have : ¬ (k / 2 = i / 2) := by omega
          simp [this]
        · rw [nibble_update]
          simp only [if_true, hev]
          exact (high_store _ hv).1
        · intro k hk hf
          rw [nibble_update]
          by_cases hk2 : k / 2 = i / 2
          · have hk1 : ¬ (k % 2 = 0) := by omega
            simp only [hk2, hk1, if_true, if_false]
            exact (high_store _ hv).2
          · simpa [hk2] using hf
    obtain ⟨ih0, ihlt, ihk, ihgt⟩ := ih (i + 1) pb' hr hdr
    rw [hstep]
    refine ⟨by rw [ih0, hb0], ?_, ?_, ?_⟩
    · intro k hk
      rw [ihlt k (by omega), hlt k hk]
    · intro k hk
      cases k with
      | zero =>
        simp only [Nat.add_zero, List.getElem_cons_zero]
        rw [ihlt i (by omega), hi]
      | succ k =>
        simp only [List.length_cons, Nat.add_lt_add_iff_right] at hk
        have := ihk k hk
        rw [show i + (k + 1) = i + 1 + k by omega]
        simpa using this
    · intro k hk hf
      simp only [List.length_cons] at hk
      exact ihgt k (by omega) (hgt k (by omega) hf)

/-- The characters of a C string are not NUL. -/
theorem cstring_ne_zero (s : List Nat) : ∀ c ∈ cstring s, c ≠ 0 := by
  intro c hc
  have := List.mem_takeWhile_imp hc
  simpa using this

/-- The loop sees only the characters before the first NUL. -/
theorem pin2pb_loop_cstring (s : List Nat) :
    ∀ (i : Nat) (pb : Nat → Nat), pin2pb_loop s i pb = pin2pb_loop (cstring s) i pb := by
  induction s with
  | nil => intro i pb; rfl
  | cons c rest ih =>
    intro i pb
    by_cases hc : c = 0
    · simp [cstring, pin2pb_loop, hc]
    · have hcs : cstring (c :: rest) = c :: cstring rest := by
        simp [cstring, List.takeWhile_cons, hc]
      rw [hcs]
      simp only [pin2pb_loop, hc, if_false]
      rw [ih, ih]

/-- The function `_emv_pin2pb` sees only the characters before the first NUL. -/
theorem pin2pb_cstring (N : Nat) (s : List Nat) (pb : Nat → Nat) :
    _emv_pin2pb N s pb = _emv_pin2pb N (cstring s) pb := by
  have hlen : strlen (cstring s) = strlen s := by
    rw [strlen_eq_length _ (cstring_ne_zero s)]
    rfl
  unfold _emv_pin2pb
  simp only [hlen]
  rw [pin2pb_loop_cstring]

/-- The header byte tells the length of a valid PIN. -/
theorem header_inj (a b : Nat) (ha : 4 ≤ a) (ha' : a ≤ 12) (hb : 4 ≤ b) (hb' : b ≤ 12)
    (h : 0x20 ||| a = 0x20 ||| b) : a = b := by
  interval_cases a <;> interval_cases b <;> first | rfl | exact absurd h (by decide)

/-- The function `_emv_pin2pb` on a string without a NUL inside: the result
flag. -/
theorem pin2pb_ok (N : Nat) (pin : List Nat) (pb : Nat → Nat)
    (hstr : ∀ c ∈ pin, c ≠ 0) :
    (_emv_pin2pb N pin pb).1 = true ↔
      (4 ≤ pin.length ∧ pin.length ≤ 12 ∧ ∀ c ∈ pin, isdigit c = true) := by
  unfold _emv_pin2pb
  simp only [strlen_eq_length pin hstr]
  by_cases hlen : pin.length < 4 ∨ pin.length > 12
  · simp only [hlen, if_true, Bool.false_eq_true, false_iff]
    omega
  · simp only [hlen, if_false]
    rw [pin2pb_loop_ok pin _ _ hstr]
    constructor
    · intro h; exact ⟨by omega, by omega, h⟩
    · intro h; exact h.2.2

/-- The function `_emv_pin2pb` on a valid PIN without a NUL inside: the block. -/
theorem pin2pb_block (N : Nat) (pin : List Nat) (pb : Nat → Nat)
    (hstr : ∀ c ∈ pin, c ≠ 0) (hok : (_emv_pin2pb N pin pb).1 = true) :
    (_emv_pin2pb N pin pb).2 0 = 0x20 ||| pin.length ∧
    (∀ k (hk : k < pin.length), nibble (_emv_pin2pb N pin pb).2 k = pin[k] - 0x30) ∧
    (∀ k, pin.length ≤ k → 1 + k / 2 < N → nibble (_emv_pin2pb N pin pb).2 k = 0xf) := by
  obtain ⟨h4, h12, hdig⟩ := (pin2pb_ok N pin pb hstr).mp hok
  have hlen : ¬ (pin.length < 4 ∨ pin.length > 12) := by omega
  unfold _emv_pin2pb
  simp only [strlen_eq_length pin hstr, hlen, if_false]
  obtain ⟨h0, _, hk, hgt⟩ := pin2pb_loop_block pin 0
    (Function.update (fun j => if j < N then 0xff else pb j) 0
      ((0x20 ||| (pin.length &&& 0xf)) % 256)) hstr hdig
  refine ⟨?_, ?_, ?_⟩
  · rw [h0, Function.update_same]
    generalize pin.length = L at h4 h12
    interval_cases L <;> rfl
  · intro k hk'
    have := hk k hk'
    rwa [Nat.zero_add] at this
  · intro k hkl hkN
    apply hgt k (by omega)
    unfold nibble
    have hne : 1 + k / 2 ≠ 0 := by omega
    rw [Function.update_noteq hne]
    simp only [hkN, if_true]
    split_ifs <;> rfl

/-! ## C21 -/

/-- C21: for the string `cstring pin` held by the characters `pin` and a block
of `EMV_PIN_BLOCK_LEN` bytes that has room for twelve digits, `_emv_pin2pb`
returns success if and only if the length of the string is in [4, 12] and every
character is a decimal digit. On success byte 0 of the block is `0x20 | L`, for
every `k < L` the `k`-th nibble of `pb[1..]` (high nibble first) is the value of
digit `k`, and every remaining nibble of the block is 0xF. The encoding is
injective on valid PINs: a second valid PIN whose block has the same
`EMV_PIN_BLOCK_LEN` bytes is the same string. -/
theorem pin2pb_encoding (EMV_PIN_BLOCK_LEN : Nat) (pin : List Nat) (pb : Nat → Nat)
    (hN : 7 ≤ EMV_PIN_BLOCK_LEN) :
    ((_emv_pin2pb EMV_PIN_BLOCK_LEN pin pb).1 = true ↔
      (4 ≤ (cstring pin).length ∧ (cstring pin).length ≤ 12 ∧
        ∀ c ∈ cstring pin, isdigit c = true)) ∧
    ((_emv_pin2pb EMV_PIN_BLOCK_LEN pin pb).1 = true →
      (_emv_pin2pb EMV_PIN_BLOCK_LEN pin pb).2 0 = 0x20 ||| (cstring pin).length ∧
      (∀ k (hk : k < (cstring pin).length),
        nibble (_emv_pin2pb EMV_PIN_BLOCK_LEN pin pb).2 k = (cstring pin)[k] - 0x30) ∧
      (∀ k, (cstring pin).length ≤ k → 1 + k / 2 < EMV_PIN_BLOCK_LEN →
        nibble (_emv_pin2pb EMV_PIN_BLOCK_LEN pin pb).2 k = 0xf) ∧
      (∀ (pin' : List Nat) (pb' : Nat → Nat),
        (_emv_pin2pb EMV_PIN_BLOCK_LEN pin' pb').1 = true →
        (∀ j, j < EMV_PIN_BLOCK_LEN →
          (_emv_pin2pb EMV_PIN_BLOCK_LEN pin' pb').2 j =
            (_emv_pin2pb EMV_PIN_BLOCK_LEN pin pb).2 j) →
        cstring pin' = cstring pin)) := by
  have hiff : ∀ (p : List Nat) (b : Nat → Nat),
      (_emv_pin2pb EMV_PIN_BLOCK_LEN p b).1 = true ↔
        (4 ≤ (cstring p).length ∧ (cstring p).length ≤ 12 ∧
          ∀ c ∈ cstring p, isdigit c = true) := by
    intro p b
    rw [pin2pb_cstring]
    exact pin2pb_ok _ _ _ (cstring_ne_zero p)
  have hblk : ∀ (p : List Nat) (b : Nat → Nat),
      (_emv_pin2pb EMV_PIN_BLOCK_LEN p b).1 = true →
      (_emv_pin2pb EMV_PIN_BLOCK_LEN p b).2 0 = 0x20 ||| (cstring p).length ∧
      (∀ k (hk : k < (cstring p).length),
        nibble (_emv_pin2pb EMV_PIN_BLOCK_LEN p b).2 k = (cstring p)[k] - 0x30) ∧
      (∀ k, (cstring p).length ≤ k → 1 + k / 2 < EMV_PIN_BLOCK_LEN →
        nibble (_emv_pin2pb EMV_PIN_BLOCK_LEN p b).2 k = 0xf) := by
    intro p b
    rw [pin2pb_cstring]
    exact pin2pb_block _ _ _ (cstring_ne_zero p)
  refine ⟨hiff pin pb, fun hok => ?_⟩
  obtain ⟨h0, hk, hf⟩ := hblk pin pb hok
  refine ⟨h0, hk, hf, ?_⟩
  intro pin' pb' hok' hsame
  obtain ⟨h0', hk', _⟩ := hblk pin' pb' hok'
  obtain ⟨h4, h12, hdig⟩ := (hiff pin pb).mp hok
  obtain ⟨h4', h12', hdig'⟩ := (hiff pin' pb').mp hok'
  have hlen : (cstring pin').length = (cstring pin).length := by
    apply header_inj _ _ h4' h12' h4 h12
    rw [← h0, ← h0']
    exact hsame 0 (by omega)
  apply List.ext_getElem hlen
  intro k h1 h2
  have hnib : nibble (_emv_pin2pb EMV_PIN_BLOCK_LEN pin' pb').2 k =
      nibble (_emv_pin2pb EMV_PIN_BLOCK_LEN pin pb).2 k := by
    unfold nibble
    rw [hsame (1 + k / 2) (by omega)]
  have e1 := hk' k h1
  have e2 := hk k h2
  have d1 := (isdigit_val (hdig' _ (List.getElem_mem h1))).1
  have d2 := (isdigit_val (hdig _ (List.getElem_mem h2))).1
  omega

/-- The PIN "12345" in a block of 8 bytes: the call succeeds, byte 0 is 0x25,
the first nibbles are 1 and 2, and nibble 5, the first after the digits, is
0xF. -/
theorem pin2pb_encoding_witness :
    7 ≤ 8 ∧
    (_emv_pin2pb 8 samplePin (fun _ => 0)).1 = true ∧
    (_emv_pin2pb 8 samplePin (fun _ => 0)).2 0 = 0x25 ∧
    nibble (_emv_pin2pb 8 samplePin (fun _ => 0)).2 0 = 1 ∧
    nibble (_emv_pin2pb 8 samplePin (fun _ => 0)).2 1 = 2 ∧
    nibble (_emv_pin2pb 8 samplePin (fun _ => 0)).2 5 = 0xf :=
  have h := pin2pb_encoding 8 samplePin (fun _ => 0) (by decide)
  have hok : (_emv_pin2pb 8 samplePin (fun _ => 0)).1 = true :=
    h.1.mpr ⟨by decide, by decide, by decide⟩
  ⟨by decide, hok, (h.2 hok).1,
    (h.2 hok).2.1 0 (by decide), (h.2 hok).2.1 1 (by decide),
    (h.2 hok).2.2.1 5 (by decide) (by decide)⟩

end Emv
